import Mathlib

/-!
Verification development for the `dcf-tools` Python package of lely-core:
a shallow embedding of the EDS/DCF processing pipeline
(`dcf/parse.py`, `dcf/lint.py`, `dcf/device.py`, `dcfgen/cli.py`)
together with theorems about the embedded operations.

Machine integers are modelled as `Nat`/`Int` (Python integers are unbounded;
widths appear only at serialization points, where we take explicit `% 2^w`).
Python exceptions are modelled with `Except PyErr`.
-/

namespace LelyDcf

/-- Kinds of Python exceptions that the embedded code can raise. -/
inductive PyErr where
  | keyErr
  | valueErr
  | nameErr
  | structErr
  | floatErr
deriving DecidableEq, Repr

/-! ## Case-insensitive strings (Python `str.lower` on ASCII) -/

/-- ASCII lower-casing of a character, as Python `str.lower` acts on ASCII. -/
def lowerChar (c : Char) : Char :=
  if 'A' ≤ c ∧ c ≤ 'Z' then Char.ofNat (c.toNat + 32) else c

/-- ASCII lower-casing of a string. -/
def lc (s : String) : String :=
  String.mk (s.data.map lowerChar)

/-- ASCII upper-casing of a character, as Python `str.upper` acts on ASCII. -/
def upperChar (c : Char) : Char :=
  if 'a' ≤ c ∧ c ≤ 'z' then Char.ofNat (c.toNat - 32) else c

/-- ASCII upper-casing of a string. -/
def uc (s : String) : String :=
  String.mk (s.data.map upperChar)

/-- Case-insensitive string comparison, the key discipline of `IniDict`. -/
def lcEq (a b : String) : Bool :=
  lc a == lc b

/-! ## INI store (`IniDict` from `dcf/parse.py`)

A section is an ordered association list of options; the store is an ordered
association list of sections.  Both are case-insensitive in their keys and
preserve the original key of the first insertion; assignment replaces the
value in place (`OrderedDict` assignment keeps the position). -/

abbrev Section := List (String × String)

abbrev Store := List (String × Section)

namespace Section

/-- Case-insensitive option lookup (`IniDict.__getitem__`). -/
def get? : Section → String → Option String
  | [], _ => none
  | (k₀, v₀) :: rest, k => if lcEq k₀ k then some v₀ else get? rest k

/-- Case-insensitive membership test. -/
def hasKey : Section → String → Bool
  | [], _ => false
  | (k₀, _) :: rest, k => lcEq k₀ k || hasKey rest k

/-- `IniDict.__setitem__`: replace the first case-insensitive match in place
(storing the new key casing), else append. -/
def set : Section → String → String → Section
  | [], k, v => [(k, v)]
  | (k₀, v₀) :: rest, k, v =>
      if lcEq k₀ k then (k, v) :: rest else (k₀, v₀) :: set rest k v

/-- Python `if K in sec and sec[K]:` — the option is present and non-empty. -/
def getNonempty (s : Section) (k : String) : Option String :=
  match s.get? k with
  | none => none
  | some v => if v = "" then none else some v

end Section

namespace Store

/-- Case-insensitive section lookup. -/
def find? : Store → String → Option Section
  | [], _ => none
  | (k₀, v₀) :: rest, k => if lcEq k₀ k then some v₀ else find? rest k

/-- Case-insensitive section membership. -/
def contains : Store → String → Bool
  | [], _ => false
  | (k₀, _) :: rest, k => lcEq k₀ k || contains rest k

/-- `ConfigParser.__setitem__` semantics: an existing section (found
case-insensitively) has its contents replaced in place, keeping the stored
key; otherwise the section is appended. -/
def setSec : Store → String → Section → Store
  | [], k, v => [(k, v)]
  | (k₀, v₀) :: rest, k, v =>
      if lcEq k₀ k then (k₀, v) :: rest else (k₀, v₀) :: setSec rest k v

/-- In-place update of an existing section's contents (mutation through a
section proxy); a no-op when the section is absent. -/
def modSec : Store → String → (Section → Section) → Store
  | [], _, _ => []
  | (k₀, v₀) :: rest, k, f =>
      if lcEq k₀ k then (k₀, f v₀) :: rest else (k₀, v₀) :: modSec rest k f

end Store

/-! ## Python integer literals

`int(s, base)` as used by the sources: base 0 (prefix-driven), 10, 16 and 2.
A failed parse is `none` (Python raises `ValueError`). -/

/-- Value of one digit character in the given base. -/
def digitVal? (base : Nat) (c : Char) : Option Nat :=
  let v : Option Nat :=
    if '0' ≤ c ∧ c ≤ '9' then some (c.toNat - 48)
    else if 'a' ≤ c ∧ c ≤ 'z' then some (c.toNat - 87)
    else if 'A' ≤ c ∧ c ≤ 'Z' then some (c.toNat - 55)
    else none
  match v with
  | some v => if v < base then some v else none
  | none => none

def digitsValAux (base : Nat) : Nat → List Char → Option Nat
  | acc, [] => some acc
  | acc, c :: rest =>
      match digitVal? base c with
      | some d => digitsValAux base (acc * base + d) rest
      | none => none

/-- Value of a non-empty digit string in the given base. -/
def digitsVal (base : Nat) (l : List Char) : Option Nat :=
  if l.isEmpty then none else digitsValAux base 0 l

/-- Magnitude part of `int(s, 0)`: `0x`/`0o`/`0b` prefixes select the base; a
decimal magnitude must not have a leading zero (unless it is all zeros). -/
def magVal0 : List Char → Option Nat
  | '0' :: x :: rest =>
      if x = 'x' ∨ x = 'X' then digitsVal 16 rest
      else if x = 'o' ∨ x = 'O' then digitsVal 8 rest
      else if x = 'b' ∨ x = 'B' then digitsVal 2 rest
      else if (x :: rest).all (· = '0') then some 0
      else none
  | l => digitsVal 10 l

/-- Magnitude part of `int(s, 16)`: an optional `0x` prefix is allowed. -/
def magVal16 : List Char → Option Nat
  | '0' :: x :: rest =>
      if x = 'x' ∨ x = 'X' then digitsVal 16 rest else digitsVal 16 ('0' :: x :: rest)
  | l => digitsVal 16 l

/-- Magnitude part of `int(s, 2)`: an optional `0b` prefix is allowed. -/
def magVal2 : List Char → Option Nat
  | '0' :: x :: rest =>
      if x = 'b' ∨ x = 'B' then digitsVal 2 rest else digitsVal 2 ('0' :: x :: rest)
  | l => digitsVal 2 l

/-- Wrap a magnitude parser with Python's optional sign handling. -/
def signedVal (f : List Char → Option Nat) (s : String) : Option Int :=
  match s.data with
  | '-' :: rest => (f rest).map (fun n => -(n : Int))
  | '+' :: rest => (f rest).map (fun n => (n : Int))
  | l => (f l).map (fun n => (n : Int))

/-- Python `int(s, 0)`. -/
def parseInt0 (s : String) : Option Int := signedVal magVal0 s

/-- Python `int(s, 10)` (leading zeros are legal in an explicit base). -/
def parseInt10 (s : String) : Option Int := signedVal (digitsVal 10) s

/-- Python `int(s, 16)`. -/
def parseInt16 (s : String) : Option Int := signedVal magVal16 s

/-- Python `int(s, 2)`. -/
def parseInt2 (s : String) : Option Int := signedVal magVal2 s

/-! ## Hexadecimal formatting (`"{:04X}".format(n)` and `"{:X}".format(n)`) -/

/-- Upper-case hexadecimal digit for `n < 16`. -/
def hexDigit (n : Nat) : Char :=
  if n < 10 then Char.ofNat (48 + n) else Char.ofNat (55 + n)

def hexCharsAux : Nat → Nat → List Char → List Char
  | 0, _, acc => acc
  | fuel + 1, n, acc =>
      if n = 0 then acc
      else hexCharsAux fuel (n / 16) (hexDigit (n % 16) :: acc)

/-- Upper-case hexadecimal digit string without padding (`"{:X}"`); the
fuel argument (the number itself) bounds the digit count. -/
def hexStr (n : Nat) : String :=
  if n = 0 then String.mk ['0'] else String.mk (hexCharsAux n n [])

/-- Python `"{:04X}".format(n)` for a non-negative `n`. -/
def pyHex4 (n : Nat) : String :=
  if n < 65536 then
    String.mk [hexDigit (n / 4096 % 16), hexDigit (n / 256 % 16),
               hexDigit (n / 16 % 16), hexDigit (n % 16)]
  else hexStr n

/-- Python `"{:04X}".format(i)` including the negative case (sign counts
towards the field width, so `-5` prints as `-005`). -/
def pyHex4i (i : Int) : String :=
  if i < 0 then
    let h := (hexStr i.natAbs).data
    String.mk ('-' :: (List.replicate (3 - h.length) '0' ++ h))
  else pyHex4 i.toNat

/-- Python `"{:X}".format(sub_index)` used for sub-object section names. -/
def pyHexX (n : Nat) : String := hexStr n

/-! ## Little-endian serialization (`struct.pack('<...')`) -/

/-- `w` little-endian bytes of `v` (the caller reduces `v` modulo `2^(8w)`). -/
def leBytes : Nat → Nat → List Nat
  | 0, _ => []
  | w + 1, v => v % 256 :: leBytes w (v / 256)

/-- Pack an integer into `w` bytes with the range checks `struct.pack`
performs for the corresponding signed/unsigned format character. -/
def packInt (w : Nat) (signed : Bool) (v : Int) : Option (List Nat) :=
  let lo : Int := if signed then -(2 ^ (8 * w - 1)) else 0
  let hi : Int := if signed then 2 ^ (8 * w - 1) - 1 else 2 ^ (8 * w) - 1
  if lo ≤ v ∧ v ≤ hi then some (leBytes w (v % (2 ^ (8 * w))).toNat) else none

/-! ## Data-type registry (`DataType` in `dcf/device.py`) -/

namespace DataType

/-- The `DataType.__bits` table. -/
def bits : Nat → Option Nat
  | 0x0001 => some 1
  | 0x0002 => some 8
  | 0x0003 => some 16
  | 0x0004 => some 32
  | 0x0005 => some 8
  | 0x0006 => some 16
  | 0x0007 => some 32
  | 0x0008 => some 32
  | 0x0010 => some 24
  | 0x0011 => some 64
  | 0x0012 => some 40
  | 0x0013 => some 48
  | 0x0014 => some 56
  | 0x0015 => some 64
  | 0x0016 => some 24
  | 0x0018 => some 40
  | 0x0019 => some 48
  | 0x001A => some 56
  | 0x001B => some 64
  | _ => none

/-- `is_basic`: membership in the `__bits` table. -/
def is_basic (dt : Nat) : Bool := (bits dt).isSome

/-- Payload width in bytes and signedness of the final character of the
`DataType.__fmt` entry (`B`/`b` 1, `H`/`h` 2, `L`/`l` 4, `Q`/`q` 8).
The REAL32/REAL64 entries (`f`/`d`) are handled separately. -/
def fmt : Nat → Option (Nat × Bool)
  | 0x0001 => some (1, false)  -- BOOLEAN      <HBLB
  | 0x0002 => some (1, true)   -- INTEGER8     <HBLb
  | 0x0003 => some (2, true)   -- INTEGER16    <HBLh
  | 0x0004 => some (4, true)   -- INTEGER32    <HBLl
  | 0x0005 => some (1, false)  -- UNSIGNED8    <HBLB
  | 0x0006 => some (2, false)  -- UNSIGNED16   <HBLH
  | 0x0007 => some (4, false)  -- UNSIGNED32   <HBLL
  | 0x0010 => some (4, true)   -- INTEGER24    <HBLl
  | 0x0012 => some (8, true)   -- INTEGER40    <HBLq
  | 0x0013 => some (8, true)   -- INTEGER48    <HBLq
  | 0x0014 => some (8, true)   -- INTEGER56    <HBLq
  | 0x0015 => some (8, true)   -- INTEGER64    <HBLq
  | 0x0016 => some (4, false)  -- UNSIGNED24   <HBLL
  | 0x0018 => some (8, false)  -- UNSIGNED40   <HBLQ
  | 0x0019 => some (8, false)  -- UNSIGNED48   <HBLQ
  | 0x001A => some (8, false)  -- UNSIGNED56   <HBLQ
  | 0x001B => some (8, false)  -- UNSIGNED64   <HBLQ
  | _ => none

/-- The `__min`/`__max` range of a basic integer data type. -/
def intRange : Nat → Option (Int × Int)
  | 0x0001 => some (0, 1)
  | 0x0002 => some (-0x80, 0x7F)
  | 0x0003 => some (-0x8000, 0x7FFF)
  | 0x0004 => some (-0x80000000, 0x7FFFFFFF)
  | 0x0005 => some (0, 0xFF)
  | 0x0006 => some (0, 0xFFFF)
  | 0x0007 => some (0, 0xFFFFFFFF)
  | 0x0010 => some (-0x800000, 0x7FFFFF)
  | 0x0012 => some (-0x8000000000, 0x7FFFFFFFFF)
  | 0x0013 => some (-0x800000000000, 0x7FFFFFFFFFFF)
  | 0x0014 => some (-0x80000000000000, 0x7FFFFFFFFFFFFF)
  | 0x0015 => some (-0x8000000000000000, 0x7FFFFFFFFFFFFFFF)
  | 0x0016 => some (0, 0xFFFFFF)
  | 0x0018 => some (0, 0xFFFFFFFFFF)
  | 0x0019 => some (0, 0xFFFFFFFFFFFF)
  | 0x001A => some (0, 0xFFFFFFFFFFFFFF)
  | 0x001B => some (0, 0xFFFFFFFFFFFFFFFF)
  | _ => none

/-- `DataType.concise_value(index, sub_index, value)`: the concise-SDO record
`struct.pack(fmt, index, sub_index, n, int(value))` with `fmt = __fmt[dt]`
and `n = int((__bits[dt] + 7) / 8)`.  A data type absent from the tables
raises `KeyError`; out-of-range pack arguments raise `struct.error`.
REAL32/REAL64 (which call `float(value)`) are outside this integer model
and map to `floatErr`. -/
def concise_value (dt : Nat) (index sub_index : Nat) (value : Int) :
    Except PyErr (List Nat) :=
  if dt = 0x0008 ∨ dt = 0x0011 then .error .floatErr
  else
    match bits dt with
    | none => .error .keyErr
    | some b =>
        match fmt dt with
        | none => .error .keyErr
        | some (w, signed) =>
            let n := (b + 7) / 8
            match packInt 2 false index, packInt 1 false sub_index,
                  packInt 4 false n, packInt w signed value with
            | some a, some b2, some c, some d => .ok (a ++ b2 ++ c ++ d)
            | _, _, _, _ => .error .structErr

end DataType

/-! ## Python arithmetic helpers

Python `>>` on (possibly negative) integers is arithmetic shift, i.e. floor
division by a power of two; `& (2^t - 1)` is reduction modulo `2^t`
(Lean's `Int` `%` is Euclidean, which agrees); `|`/`&` in general are
two's-complement, which `Int.lor`/`Int.land` implement. -/

/-- Python `v >> k`. -/
def pyShr (v : Int) (k : Nat) : Int := Int.fdiv v (2 ^ k)

/-- Python `v & (2^t - 1)`. -/
def pyMask (v : Int) (t : Nat) : Int := v % (2 ^ t)

/-! ## Object dictionary with parsed values (`Device`/`Object`/`SubObject`)

For the PDO resolver and the identity extraction we only need, per
sub-object, the integer produced by `parse_value()`; the dictionary is an
association list `index → sub_index → value` in insertion order. -/

abbrev ObjV := List (Nat × Int)

abbrev DevV := List (Nat × ObjV)

/-- Sub-object lookup inside an object (`obj[sub]`, `sub in obj`). -/
def ObjV.get? (o : ObjV) (sub : Nat) : Option Int :=
  (o.find? (fun p => p.1 = sub)).map (·.2)

/-- Object lookup (`dev[index]`, `index in dev`). -/
def DevV.get? (d : DevV) (index : Nat) : Option ObjV :=
  (d.find? (fun p => p.1 = index)).map (·.2)

/-- `dev[index][sub]` as one step. -/
def DevV.sub? (d : DevV) (index sub : Nat) : Option Int :=
  match d.get? index with
  | none => none
  | some o => o.get? sub

/-- A resolved PDO mapping slot: either a reference to a dictionary
sub-object `dev[index][sub]`, or the single sub-object of a synthesized
dummy object (`Object.from_dummy`) for a data-type index. -/
inductive MapEntry where
  | obj (index sub : Nat)
  | dummy (index sub : Nat)
deriving DecidableEq, Repr

/-- The `PDO` record resolved by `PDO.from_device`. -/
structure PDOr where
  cob_id : Int := 0x80000000
  transmission_type : Int := 0
  inhibit_time : Int := 0
  event_timer : Int := 0
  event_deadline : Int := 0
  sync_start_value : Int := 0
  n : Int := 0
  mapping : List (Nat × MapEntry) := []
deriving DecidableEq, Repr

/-- `PDO.from_device(dev, index)` from `dcf/device.py`: read the
communication object at `index` and the mapping object at `index + 0x200`,
resolving each non-zero mapping word to a sub-object reference
(synthesizing a dummy object when the mapped index is a data type).
A missing object or mapping target raises `KeyError`. -/
def PDO.from_device (dev : DevV) (index : Nat) : Except PyErr PDOr := do
  let is_tpdo := (index &&& 0xFE00) == 0x1800
  let pdo_comm ← match dev.get? index with
                 | some o => pure o
                 | none => throw .keyErr
  let n : Int := (pdo_comm.get? 0).getD 0
  let cob_id : Int :=
    match pdo_comm.get? 1 with
    | some v => if 1 ≤ n then v else 0x80000000
    | none => 0x80000000
  let transmission_type : Int :=
    match pdo_comm.get? 2 with
    | some v => if 2 ≤ n then v else 0
    | none => 0
  let inhibit_time : Int :=
    match pdo_comm.get? 3 with
    | some v => if 3 ≤ n ∧ is_tpdo then v else 0
    | none => 0
  let sub5 : Option Int :=
    match pdo_comm.get? 5 with
    | some v => if 5 ≤ n then some v else none
    | none => none
  let event_timer : Int := if is_tpdo then sub5.getD 0 else 0
  let event_deadline : Int := if is_tpdo then 0 else sub5.getD 0
  let sync_start_value : Int :=
    match pdo_comm.get? 6 with
    | some v => if 6 ≤ n ∧ is_tpdo then v else 0
    | none => 0
  let pdo_mapping ← match dev.get? (index + 0x200) with
                    | some o => pure o
                    | none => throw .keyErr
  let pn : Int := (pdo_mapping.get? 0).getD 0
  let mut mapping : List (Nat × MapEntry) := []
  for i in List.range pn.toNat do
    let i := i + 1
    match pdo_mapping.get? i with
    | none => pure ()
    | some value =>
        if value == 0 then
          pure ()
        else
          let mIndex := (pyMask (pyShr value 16) 16).toNat
          let mSub := (pyMask (pyShr value 8) 8).toNat
          if mIndex < 0x1000 then
            -- `Object.from_dummy(mIndex)` holds exactly sub-index 0.
            if mSub = 0 then
              mapping := mapping ++ [(i, MapEntry.dummy mIndex mSub)]
            else
              throw .keyErr
          else
            match dev.sub? mIndex mSub with
            | some _ => mapping := mapping ++ [(i, MapEntry.obj mIndex mSub)]
            | none => throw .keyErr
  pure { cob_id, transmission_type, inhibit_time, event_timer,
         event_deadline, sync_start_value, n := pn, mapping }

/-! ## Device identity extraction (`Device.__init__`, `dcf/device.py`)

The phase after object construction: read 0x1000/0 and 0x1018/1 (a missing
entry raises `KeyError`), tolerate missing 0x1018/2..4 with default 0, then
apply the `[DeviceInfo]` / `[DeviceComissioning]` overrides. -/

structure DevIdent where
  device_type : Int
  vendor_id : Int
  product_code : Int
  revision_number : Int
  serial_number : Int
deriving DecidableEq, Repr

/-- One identity override from a configuration section: when the key is
present and non-empty, its parsed value replaces the current one (a
mismatch with a non-zero current value additionally warns, which this model
does not track); a malformed literal raises `ValueError`. -/
def overrideInt (sec : Option Section) (key : String) (cur : Int) :
    Except PyErr Int :=
  match sec with
  | none => pure cur
  | some s =>
      match s.getNonempty key with
      | none => pure cur
      | some v =>
          match parseInt0 v with
          | some n => pure n
          | none => throw .valueErr

/-- Identity extraction of `Device.__init__` over an already-built object
dictionary, with the optional `[DeviceInfo]` and `[DeviceComissioning]`
sections for the override phase.  Reading 0x1000/0 or 0x1018/1 is
unguarded (`KeyError` on a miss); 0x1018/2..4 sit in
`try/except KeyError` blocks that default to 0. -/
def deviceIdentity (devInfo devComm : Option Section) (objs : DevV) :
    Except PyErr DevIdent :=
  match objs.sub? 0x1000 0 with
  | none => throw .keyErr
  | some device_type =>
      match objs.sub? 0x1018 1 with
      | none => throw .keyErr
      | some vendor_id₀ => do
          let product_code₀ : Int := (objs.sub? 0x1018 2).getD 0
          let revision_number₀ : Int := (objs.sub? 0x1018 3).getD 0
          let serial_number₀ : Int := (objs.sub? 0x1018 4).getD 0
          let vendor_id ← overrideInt devInfo ("VendorNumber") vendor_id₀
          let product_code ← overrideInt devInfo ("ProductNumber") product_code₀
          let revision_number ← overrideInt devInfo ("RevisionNumber") revision_number₀
          let serial_number ← overrideInt devComm ("LSS_SerialNumber") serial_number₀
          pure { device_type, vendor_id, product_code, revision_number,
                 serial_number }

/-! ## Slave model (`dcfgen/cli.py`)

For the configurator we need, per sub-object: its data type index, whether
it is writable, whether it is PDO-mappable, and its parsed value (used by
the 0x1016 heartbeat wiring). -/

structure SubInfo where
  dt : Nat
  write : Bool := true
  pdo_mapping : Bool := false
  value : Int := 0
deriving DecidableEq, Repr

abbrev ObjT := List (Nat × SubInfo)

abbrev DevT := List (Nat × ObjT)

def ObjT.get? (o : ObjT) (sub : Nat) : Option SubInfo :=
  (o.find? (fun p => p.1 = sub)).map (·.2)

def DevT.get? (d : DevT) (index : Nat) : Option ObjT :=
  (d.find? (fun p => p.1 = index)).map (·.2)

def DevT.sub? (d : DevT) (index sub : Nat) : Option SubInfo :=
  match d.get? index with
  | none => none
  | some o => o.get? sub

/-- The slave state threaded through the configurators: its parsed object
dictionary, whether it consumes heartbeats, and the ordered list of emitted
concise-SDO records. -/
structure SlaveW where
  dev : DevT
  heartbeat_consumer : Bool := false
  sdo : List (List Nat) := []
deriving DecidableEq, Repr

/-- `Slave.concise_value(index, sub_index, value)`: look the target
sub-object up in the dictionary (missing object or sub-object raises
`KeyError`); a missing sub-index 0 of a non-empty object is encoded as
UNSIGNED8 (the "highest sub-index supported" convention).  A non-writable
target only warns, which this model does not track. -/
def SlaveW.concise_value (s : SlaveW) (index sub_index : Nat) (value : Int) :
    Except PyErr (List Nat) :=
  match s.dev.get? index with
  | none => throw .keyErr
  | some obj =>
      match obj.get? sub_index with
      | some so => DataType.concise_value so.dt index sub_index value
      | none =>
          if sub_index = 0 ∧ obj.length > 0 then
            DataType.concise_value 0x0005 index 0 value
          else throw .keyErr

/-- The `cob_id` entry of a PDO overlay: the literal `"auto"` or an integer. -/
inductive CobCfg where
  | auto
  | val (v : Int)
deriving DecidableEq, Repr

/-- One `rpdo:`/`tpdo:` slot of the YAML overlay (`cfg` in
`Slave.__parse_pdo_config`); mapping entries carry `(index, sub_index)`
with the `sub_index` default 0 already applied. -/
structure PdoCfg where
  cob_id : Option CobCfg := none
  transmission : Option Int := none
  inhibit_time : Option Int := none
  event_timer : Option Int := none
  event_deadline : Option Int := none
  sync_start : Option Int := none
  mapping : Option (List (Nat × Nat)) := none
  enabled : Option Bool := none
deriving Repr

/-- The mutable PDO state of the configurator (`dcf.PDO` fields used by
`__parse_pdo_config`); mapping slots store `(index, sub_index)` handles. -/
structure PDOc where
  cob_id : Int
  transmission_type : Int := 0
  inhibit_time : Int := 0
  event_timer : Int := 0
  event_deadline : Int := 0
  sync_start_value : Int := 0
  n : Int := 0
  mapping : List (Nat × (Nat × Nat)) := []
deriving DecidableEq, Repr

/-- Python `v | 0x80000000`. -/
def orDisable (v : Int) : Int := Int.lor v 0x80000000

/-- Python `v & 0x80000000`. -/
def andDisable (v : Int) : Int := Int.land v 0x80000000

/-- `Slave.__parse_pdo_config(pdo, comm_idx, cfg, options)` from
`dcfgen/cli.py`, returning the emitted concise-SDO records, the updated PDO
and the updated `options["cob_id"]` pool.  The local Python variable
`event_timer` — read by the `event_deadline` branch — is modelled by
`etLocal`; reading it unbound raises `NameError`, exactly as in Python. -/
def parse_pdo_config (slave : SlaveW) (node_id : Int) (pdo₀ : PDOc)
    (comm_idx : Nat) (cfg : PdoCfg) (pool₀ : Int) :
    Except PyErr (List (List Nat) × PDOc × Int) := do
  let mut sdo : List (List Nat) := []
  let is_tpdo := (comm_idx &&& 0xFE00) == 0x1800
  let mut pdo := pdo₀
  let mut pool := pool₀
  let cob_id := pdo.cob_id
  match cfg.cob_id with
  | some .auto =>
      let i := comm_idx &&& 0x01FF
      if i < 4 then
        if is_tpdo then
          pdo := { pdo with cob_id := (i + 1 : Int) * 0x100 + 0x80 + node_id }
        else
          pdo := { pdo with cob_id := (i + 1 : Int) * 0x100 + 0x100 + node_id }
      else
        pdo := { pdo with cob_id := pool }
        if pdo.cob_id ≥ 0x6E0 then throw .valueErr
        pool := pdo.cob_id + 1
  | some (.val v) => pdo := { pdo with cob_id := v }
  | none => pure ()
  if cob_id ≠ orDisable pdo.cob_id then
    sdo := sdo ++ [← slave.concise_value comm_idx 1 (orDisable pdo.cob_id)]
  if andDisable pdo.cob_id == 0 then
    match cfg.transmission with
    | some transmission =>
        if transmission ≠ pdo.transmission_type then
          pdo := { pdo with transmission_type := transmission }
          sdo := sdo ++ [← slave.concise_value comm_idx 2 transmission]
    | none => pure ()
    match cfg.inhibit_time with
    | some inhibit_time =>
        if inhibit_time ≠ pdo.inhibit_time then
          pdo := { pdo with inhibit_time := inhibit_time }
          if is_tpdo then
            sdo := sdo ++ [← slave.concise_value comm_idx 3 inhibit_time]
    | none => pure ()
    let mut etLocal : Option Int := none
    match cfg.event_timer with
    | some event_timer =>
        etLocal := some event_timer
        if event_timer ≠ pdo.event_timer then
          pdo := { pdo with event_timer := event_timer }
          if is_tpdo then
            sdo := sdo ++ [← slave.concise_value comm_idx 5 event_timer]
    | none => pure ()
    match cfg.event_deadline with
    | some event_deadline =>
        if event_deadline ≠ pdo.event_deadline then
          pdo := { pdo with event_deadline := event_deadline }
          if ¬ is_tpdo then
            -- The source writes the stale local `event_timer` here.
            match etLocal with
            | some event_timer =>
                sdo := sdo ++ [← slave.concise_value comm_idx 5 event_timer]
            | none => throw .nameErr
    | none => pure ()
    match cfg.sync_start with
    | some sync_start =>
        if sync_start ≠ pdo.sync_start_value then
          pdo := { pdo with sync_start_value := sync_start }
          if is_tpdo then
            sdo := sdo ++ [← slave.concise_value comm_idx 6 sync_start]
    | none => pure ()
    let map_idx := comm_idx + 0x200
    match cfg.mapping with
    | some entries =>
        if pdo.n > 0 ∨ entries.length > 0 then
          pdo := { pdo with n := 0, mapping := [] }
          sdo := sdo ++ [← slave.concise_value map_idx 0 0]
        let mut size : Nat := 0
        let mut nCount : Nat := 0
        for entry in entries do
          let (index, sub_index) := entry
          match slave.dev.sub? index sub_index with
          | some subobj =>
              let bitsv ← match DataType.bits subobj.dt with
                          | some b => pure b
                          | none => throw .keyErr
              size := size + bitsv
              nCount := nCount + 1
              pdo := { pdo with mapping := pdo.mapping ++ [(nCount, (index, sub_index))] }
              let value : Int :=
                ((index &&& 0xFFFF) * 65536 + (sub_index &&& 0xFF) * 256
                  + (bitsv &&& 0xFF) : Nat)
              sdo := sdo ++ [← slave.concise_value map_idx nCount value]
          | none => throw .keyErr
        -- `size > 64` only warns.
        pdo := { pdo with n := (pdo.mapping.length : Int) }
        if pdo.n > 0 then
          sdo := sdo ++ [← slave.concise_value map_idx 0 pdo.n]
    | none => pure ()
    if cfg.enabled.getD true then
      sdo := sdo ++ [← slave.concise_value comm_idx 1 pdo.cob_id]
  pure (sdo, pdo, pool)

/-! ## Heartbeat consumer wiring (`Master.from_config`, `dcfgen/cli.py`)

The per-slave block that selects a 0x1016 slot and *inserts* the write at
position 0 of the slave's `sdo` list. -/

/-- The first 0x1016 slot search: an existing entry whose node-ID field
already targets the master (`break` on the first hit); 0 when none. -/
def findHbSlot (master_node_id : Int) : ObjT → Nat
  | [] => 0
  | (si, so) :: rest =>
      if si = 0 then findHbSlot master_node_id rest
      else if pyMask (pyShr so.value 16) 8 == master_node_id then si
      else findHbSlot master_node_id rest

/-- The second 0x1016 slot search: any unused entry (zero heartbeat time or
invalid node-ID); 0 when none. -/
def findFreeSlot : ObjT → Nat
  | [] => 0
  | (si, so) :: rest =>
      if si = 0 then findFreeSlot rest
      else
        let heartbeat_time := pyMask so.value 16
        let nid := pyMask (pyShr so.value 16) 8
        if heartbeat_time == 0 ∨ nid == 0 ∨ nid > 127 then si
        else findFreeSlot rest

/-- The non-consumer path: every 0x1016 entry with a non-zero time that
targets the master is disabled by writing back its node-ID with a zero
time, each write inserted at position 0 of the slave's `sdo` list. -/
def disableStale (master_node_id : Int) (slave : SlaveW) :
    ObjT → Except PyErr SlaveW
  | [] => pure slave
  | (si, so) :: rest =>
      if si = 0 then disableStale master_node_id slave rest
      else
        let heartbeat_time := pyMask so.value 16
        let nid := pyMask (pyShr so.value 16) 8
        if heartbeat_time ≠ 0 ∧ nid == master_node_id then do
          let r ← slave.concise_value 0x1016 si (nid * 65536)
          disableStale master_node_id { slave with sdo := r :: slave.sdo } rest
        else disableStale master_node_id slave rest

/-- The body of the per-slave heartbeat loop in `Master.from_config`:
`master_node_id` is the master's node-ID and `heartbeat` the value
`int(heartbeat_producer * heartbeat_multiplier)`.  Warnings (no free slot,
no 0x1016 object) are not tracked. -/
def wireHeartbeat (master_node_id : Int) (heartbeat : Int) (slave : SlaveW) :
    Except PyErr SlaveW :=
  if slave.heartbeat_consumer ∧ heartbeat > 0 then
    match slave.dev.get? 0x1016 with
    | some obj =>
        let s₁ := findHbSlot master_node_id obj
        let sub_index := if s₁ = 0 then findFreeSlot obj else s₁
        if sub_index ≠ 0 then do
          let value := pyMask master_node_id 8 * 65536 + pyMask heartbeat 16
          let r ← slave.concise_value 0x1016 sub_index value
          pure { slave with sdo := r :: slave.sdo }
        else pure slave
    | none => pure slave
  else
    match slave.dev.get? 0x1016 with
    | some obj => disableStale master_node_id slave obj
    | none => pure slave

/-! ## Linter (`dcf/lint.py`)

A pure validator over the INI store: it accumulates warnings and returns a
success flag.  Unhandled Python exceptions (the `ValueError` of an `int()`
call outside a `try`, the `NameError` of reading an unbound local) surface
as `Except.error`.  The REAL32/REAL64 paths call into IEEE-754 parsing
(`__parse_float`) which is outside this integer model; they are mapped to
`floatErr` and are not exercised by any theorem below. -/

/-- Characters accepted by the regex `\s`. -/
def isSpaceChar (c : Char) : Bool :=
  c = ' ' ∨ c = '\t' ∨ c = '\n' ∨ c = '\r' ∨ c = '\x0b' ∨ c = '\x0c'

def dropSpaces (l : List Char) : List Char := l.dropWhile isSpaceChar

/-- Case-insensitively strip a literal pattern, returning the rest. -/
def ciStrip : List Char → List Char → Option (List Char)
  | [], l => some l
  | _, [] => none
  | p :: ps, c :: cs => if lowerChar p = lowerChar c then ciStrip ps cs else none

def isDecChar (c : Char) : Bool := '0' ≤ c ∧ c ≤ '9'

/-- `[0-9A-F]` under `re.IGNORECASE`. -/
def isHexAFChar (c : Char) : Bool :=
  isDecChar c ∨ ('A' ≤ c ∧ c ≤ 'F') ∨ ('a' ≤ c ∧ c ≤ 'f')

/-- The number part `(-?0x[0-9A-F]+)|(-?[0-9]+)` of `__p_value`, anchored at
the end (`re.IGNORECASE`). -/
def numMatch (l : List Char) : Bool :=
  let l := match l with
           | '-' :: rest => rest
           | l => l
  match l with
  | '0' :: x :: rest =>
      if x = 'x' ∨ x = 'X' then ¬ rest.isEmpty ∧ rest.all isHexAFChar
      else ('0' :: x :: rest).all isDecChar
  | l => ¬ l.isEmpty ∧ l.all isDecChar

/-- `__p_value.match(s)`: the optional `\$NODEID\s*\+\s*` prefix followed by
a number, both case-insensitive; returns the text of the `value` group and
whether the `variable` group matched. -/
def pvMatch (s : String) : Option (String × Bool) :=
  let l := s.data
  let afterPre : Option (List Char) :=
    match l with
    | '$' :: t =>
        match ciStrip (['N', 'O', 'D', 'E', 'I', 'D']) t with
        | some t2 =>
            match dropSpaces t2 with
            | '+' :: t4 => some (dropSpaces t4)
            | _ => none
        | none => none
    | _ => none
  match afterPre with
  | some rest => if numMatch rest then some (String.mk rest, true) else none
  | none => if numMatch l then some (String.mk l, false) else none

/-- `__limits` keyed by a Python integer. -/
def intRangeI (i : Int) : Option (Int × Int) :=
  if i < 0 then none else DataType.intRange i.toNat

/-- `__parse_limit(cfg, section, entry, data_type)`.  The `try` block covers
the literal parse, so a bad integer only warns and fails the check; a regex
mismatch warns but *falls through* with the value 0 (a faithful rendering
of the missing `return` in the source). -/
def lintLimit (sec : Section) (secName entry : String) (data_type : Int) :
    Except PyErr (Bool × List String) := do
  match sec.getNonempty entry with
  | none => pure (true, [])
  | some raw => do
      if data_type = 0x0008 ∨ data_type = 0x0011 then throw .floatErr
      let mut value : Int := 0
      let mut hasNodeid := false
      let mut ws : List String := []
      let mut parseFailed := false
      if uc raw = "$NODEID" then
        hasNodeid := true
      else
        match pvMatch raw with
        | some (txt, hv) =>
            match parseInt0 txt with
            | some v =>
                value := v
                hasNodeid := hv
            | none =>
                -- `int()` raised inside the `try`: warn and fail.
                parseFailed := true
                ws := ws ++ [("invalid " ++ entry ++ " in [" ++ secName ++ "]")]
        | none =>
            ws := ws ++ [("invalid " ++ entry ++ " in [" ++ secName ++ "]")]
      if parseFailed then
        pure (false, ws)
      else
        let (lo, hi) ← match intRangeI data_type with
                       | some p => pure p
                       | none => throw .keyErr
        let low_limit := if hasNodeid then lo - 1 else lo
        if value < low_limit then
          pure (false, ws ++ [(entry ++ " underflow in [" ++ secName ++ "]")])
        else
          let high_limit := if hasNodeid then hi - 127 else hi
          if value > high_limit then
            pure (false, ws ++ [(entry ++ " overflow in [" ++ secName ++ "]")])
          else
            pure (true, ws)

/-- `__parse_data_type(cfg, section)`.  When `int()` fails, the source warns
and then reads the unbound local `data_type`, raising `NameError`. -/
def lintDataType (sec : Section) (secName : String) :
    Except PyErr (Bool × List String) := do
  match sec.getNonempty ("DataType") with
  | none => pure (true, [])
  | some raw =>
      match parseInt0 raw with
      | none => throw .nameErr
      | some data_type =>
          if (intRangeI data_type).isSome then do
            let (ok1, w1) ← lintLimit sec secName ("LowLimit") data_type
            if ok1 then do
              let (ok2, w2) ← lintLimit sec secName ("HighLimit") data_type
              pure (ok2, w1 ++ w2)
            else
              -- `or` short-circuits: the HighLimit check is not run.
              pure (false, w1)
          else do
            let mut ok := true
            let mut ws : List String := []
            if (sec.getNonempty ("LowLimit")).isSome then
              ok := false
              ws := ws ++ [("LowLimit not supported in [" ++ secName ++ "]")]
            if (sec.getNonempty ("HighLimit")).isSome then
              ok := false
              ws := ws ++ [("HighLimit not supported in [" ++ secName ++ "]")]
            pure (ok, ws)

/-- `__parse_value(cfg, section, entry, value)`: the data-type-aware range
check with the `$NODEID` shifting rule.  The `int()` calls here are not
guarded by a `try`, so a literal that matches the regex but is rejected by
`int(_, 0)` propagates `ValueError`. -/
def lintValue (sec : Section) (secName entry raw : String) :
    Except PyErr (Bool × List String) := do
  let data_type ← match sec.get? ("DataType") with
                  | none => throw .keyErr
                  | some s =>
                      match parseInt0 s with
                      | some v => pure v
                      | none => throw .valueErr
  match intRangeI data_type with
  | none => pure (true, [])
  | some (tlo, thi) => do
      if data_type = 0x0008 ∨ data_type = 0x0011 then throw .floatErr
      let mut low_limit := tlo
      let mut low_has := false
      let mut high_limit := thi
      let mut high_has := false
      match sec.getNonempty ("LowLimit") with
      | none => pure ()
      | some s =>
          if uc s = "$NODEID" then
            low_limit := 0
            low_has := true
          else
            match pvMatch s with
            | some (txt, hv) =>
                match parseInt0 txt with
                | some v =>
                    low_limit := v
                    low_has := hv
                | none => throw .valueErr
            | none =>
                return (false, [("invalid LowLimit in [" ++ secName ++ "]")])
      match sec.getNonempty ("HighLimit") with
      | none => pure ()
      | some s =>
          if uc s = "$NODEID" then
            high_limit := 0
            high_has := true
          else
            match pvMatch s with
            | some (txt, hv) =>
                match parseInt0 txt with
                | some v =>
                    high_limit := v
                    high_has := hv
                | none => throw .valueErr
            | none =>
                return (false, [("invalid HighLimit in [" ++ secName ++ "]")])
      let mut value : Int := 0
      let mut value_has := false
      -- Note: this comparison is case-sensitive in the source.
      if raw = "$NODEID" then
        value_has := true
      else
        match pvMatch raw with
        | some (txt, hv) =>
            match parseInt0 txt with
            | some v =>
                value := v
                value_has := hv
            | none => throw .valueErr
        | none =>
            return (false, [("invalid " ++ entry ++ " in [" ++ secName ++ "]")])
      if ¬ value_has ∧ low_has then
        low_limit := low_limit + 1
      else if value_has ∧ ¬ low_has then
        low_limit := low_limit - 1
      if value < low_limit then
        return (false, [(entry ++ " underflow in [" ++ secName ++ "]")])
      if ¬ value_has ∧ high_has then
        high_limit := high_limit + 127
      else if value_has ∧ ¬ high_has then
        high_limit := high_limit - 127
      if value > high_limit then
        return (false, [(entry ++ " overflow in [" ++ secName ++ "]")])
      pure (true, [])

/-- `__parse_sub_object_0(cfg, section)`. -/
def lintSubObject0 (sec : Section) (secName : String) :
    Except PyErr (Bool × List String) := do
  let (okDT, wDT) ← lintDataType sec secName
  if okDT then do
    let mut ok := true
    let mut ws := wDT
    match sec.getNonempty ("DefaultValue") with
    | some v => do
        let (o, w) ← lintValue sec secName ("DefaultValue") v
        if ¬ o then ok := false
        ws := ws ++ w
    | none => pure ()
    match sec.getNonempty ("ParameterValue") with
    | some v => do
        let (o, w) ← lintValue sec secName ("ParameterValue") v
        if ¬ o then ok := false
        ws := ws ++ w
    | none => pure ()
    pure (ok, ws)
  else
    pure (false, wDT)

/-- The `__object_entries` whitelist (keys lower-cased); only `AccessType`
constrains its value. -/
def objectEntryKeys : List String :=
  [("subnumber"), ("parametername"), ("objecttype"), ("datatype"),
   ("accesstype"), ("lowlimit"), ("highlimit"), ("defaultvalue"),
   ("pdomapping"), ("objflags"), ("compactsubobj"), ("parametervalue"),
   ("uploadfile"), ("downloadfile"), ("denotation"), ("paramrefd")]

def accessTypeVals : List String :=
  [("ro"), ("wo"), ("rw"), ("rwr"), ("rww"), ("const")]

/-- The entry whitelist loop shared by `__parse_object` and
`__parse_sub_object`. -/
def lintObjectEntries (sec : Section) (secName : String) : Bool × List String :=
  sec.foldl
    (fun acc p =>
      let (k, v) := p
      if objectEntryKeys.contains (lc k) then
        if lc k = "accesstype" ∧ ¬ accessTypeVals.contains (lc v) then
          (false, acc.2 ++ [("invalid value for " ++ k ++ " in [" ++ secName ++ "]: " ++ v)])
        else acc
      else
        (false, acc.2 ++ [("invalid entry in [" ++ secName ++ "]: " ++ k)]))
    (true, [])

/-- `__parse_object(cfg, section, index)`. -/
def lintObject (cfg : Store) (secName : String) (sec : Section) (index : Nat) :
    Except PyErr (Bool × List String) := do
  let (ok₀, ws₀) := lintObjectEntries sec secName
  let mut ok := ok₀
  let mut ws := ws₀
  if ¬ sec.hasKey ("ParameterName") then
    ok := false
    ws := ws ++ [("ParameterName not specified in [" ++ secName ++ "]")]
  let mut object_type : Int := 0x07
  match sec.getNonempty ("ObjectType") with
  | some v =>
      match parseInt0 v with
      | some n => object_type := n
      | none => throw .valueErr
  | none => pure ()
  if (object_type = 0x05 ∨ object_type = 0x07) ∧
      (sec.getNonempty ("DataType")).isNone then
    ok := false
    ws := ws ++ [("DataType not specified in [" ++ secName ++ "]")]
  let mut sub_number : Int := 0
  match sec.getNonempty ("SubNumber") with
  | some v =>
      match parseInt0 v with
      | some n => sub_number := n
      | none => throw .valueErr
  | none => pure ()
  let mut compact_sub_obj : Int := 0
  match sec.getNonempty ("CompactSubObj") with
  | some v =>
      match parseInt0 v with
      | some n => compact_sub_obj := n
      | none => throw .valueErr
  | none => pure ()
  if (sec.getNonempty ("AccessType")).isSome then
    if (object_type = 0x06 ∨ object_type = 0x08 ∨ object_type = 0x09) ∧
        compact_sub_obj = 0 then
      ok := false
      ws := ws ++ [("AccessType not supported in [" ++ secName ++ "]")]
  else if object_type ≠ 0x02 ∧ compact_sub_obj ≠ 0 then
    ok := false
    ws := ws ++ [("AccessType not specified in [" ++ secName ++ "]")]
  if sub_number ≠ 0 ∧ compact_sub_obj ≠ 0 then
    ok := false
    ws := ws ++ [("SubNumber and CompactSubObj specified in [" ++ secName ++ "]")]
  else if sub_number ≠ 0 then
    if object_type ≠ 0x08 ∧ object_type ≠ 0x09 then
      ok := false
      ws := ws ++ [("ObjectType should be ARRAY or RECORD in [" ++ secName ++ "]")]
    let mut n : Int := 0
    for sub_index in List.range 255 do
      let sub_name := pyHex4 index ++ "sub" ++ pyHexX sub_index
      match cfg.find? sub_name with
      | none => pure ()
      | some subsec => do
          n := n + 1
          if sub_index = 0 then
            let mut data_type : Int := 0
            match subsec.getNonempty ("DataType") with
            | some v =>
                match parseInt0 v with
                | some d => data_type := d
                | none => throw .valueErr
            | none => pure ()
            if data_type ≠ 0x0005 then
              ok := false
              ws := ws ++ [("DataType should be UNSIGNED8 in [" ++ sub_name ++ "]")]
    if n < sub_number then
      ok := false
      ws := ws ++ [("missing sub-object(s) for object " ++ pyHex4 index)]
    else if n > sub_number then
      ok := false
      ws := ws ++ [("extra sub-object(s) for object " ++ pyHex4 index)]
  else if compact_sub_obj ≠ 0 then
    if object_type ≠ 0x08 ∧ object_type ≠ 0x09 then
      ok := false
      ws := ws ++ [("ObjectType should be ARRAY or RECORD in [" ++ secName ++ "]")]
  if sub_number = 0 then
    let (o, w) ← lintSubObject0 sec secName
    if ¬ o then ok := false
    ws := ws ++ w
  pure (ok, ws)

/-- `__parse_sub_object(cfg, section, index, sub_index)`. -/
def lintSubObject (cfg : Store) (secName : String) (sec : Section)
    (index sub_index : Nat) : Except PyErr (Bool × List String) := do
  let mut ok := true
  let mut ws : List String := []
  if ¬ cfg.contains (pyHex4 index) then
    ok := false
    ws := ws ++ [("object " ++ pyHex4 index ++ " not defined: " ++ secName)]
  if sub_index > 254 then
    return (false, ws ++ [("invalid sub-index: " ++ secName)])
  let (okE, wsE) := lintObjectEntries sec secName
  if ¬ okE then ok := false
  ws := ws ++ wsE
  if ¬ sec.hasKey ("ParameterName") then
    ok := false
    ws := ws ++ [("ParameterName not specified in [" ++ secName ++ "]")]
  let (okDT, wDT) ← lintDataType sec secName
  if okDT then do
    ws := ws ++ wDT
    match sec.getNonempty ("DefaultValue") with
    | some v => do
        let (o, w) ← lintValue sec secName ("DefaultValue") v
        if ¬ o then ok := false
        ws := ws ++ w
    | none => pure ()
    match sec.getNonempty ("ParameterValue") with
    | some v => do
        let (o, w) ← lintValue sec secName ("ParameterValue") v
        if ¬ o then ok := false
        ws := ws ++ w
    | none => pure ()
  else
    ok := false
    ws := ws ++ wDT
  if (sec.getNonempty ("AccessType")).isNone then
    ok := false
    ws := ws ++ [("AccessType not specified in [" ++ secName ++ "]")]
  pure (ok, ws)

/-- `__parse_compact_sub_object(cfg, section, index)`. -/
def lintCompactSubObject (cfg : Store) (secName : String) (sec : Section)
    (index : Nat) : Except PyErr (Bool × List String) := do
  let mut ok := true
  let mut ws : List String := []
  let mut compact_sub_obj : Int := 0
  let name := pyHex4 index
  match cfg.find? name with
  | some objsec => do
      match objsec.getNonempty ("CompactSubObj") with
      | some v =>
          match parseInt0 v with
          | some n => compact_sub_obj := n
          | none => throw .valueErr
      | none =>
          ok := false
          ws := ws ++ [("object " ++ name ++ " does not support compact storage")]
      let (o, w) ← lintDataType objsec name
      if ¬ o then ok := false
      ws := ws ++ w
  | none =>
      ok := false
      ws := ws ++ [("object " ++ name ++ " not defined: " ++ secName)]
  let mut nr_of_entries : Option Int := none
  for p in sec do
    let (k, v) := p
    if lc k = "nrofentries" then
      match parseInt10 v with
      | some n => nr_of_entries := some n
      | none =>
          ok := false
          ws := ws ++ [("invalid value for NrOfEntries in [" ++ secName ++ "]: " ++ k)]
    else
      match parseInt10 k with
      | some i =>
          if i > compact_sub_obj then
            ok := false
            ws := ws ++ [("invalid sub-index in [" ++ secName ++ "]")]
      | none =>
          ok := false
          ws := ws ++ [("invalid entry in [" ++ secName ++ "]: " ++ k)]
  match nr_of_entries with
  | none =>
      return (false, ws ++ [("NrOfEntries entry missing in [" ++ secName ++ "]")])
  | some nr => do
      if nr < (sec.length : Int) - 1 then
        ok := false
        ws := ws ++ [("too many entries in [" ++ secName ++ "]")]
      else if nr > (sec.length : Int) - 1 then
        ok := false
        ws := ws ++ [("too few entries in [" ++ secName ++ "]")]
      if ok ∧ (lc secName).endsWith ("value") then
        match cfg.find? name with
        | some objsec =>
            for p in sec do
              let (k, v) := p
              if lc k = "nrofentries" then
                pure ()
              else do
                let (o, w) ← lintValue objsec secName ("entry " ++ k) v
                if ¬ o then ok := false
                ws := ws ++ w
        | none => throw .keyErr
      pure (ok, ws)

/-- `__parse_dummy_usage(cfg, section)`. -/
def lintDummyUsage (sec : Section) (secName : String) : Bool × List String :=
  sec.foldl
    (fun acc p =>
      let (k, v) := p
      let isDummyKey :=
        match k.data with
        | d1 :: d2 :: d3 :: d4 :: d5 :: rest =>
            (match ciStrip (['D', 'u', 'm', 'm', 'y']) (d1 :: d2 :: d3 :: d4 :: d5 :: rest) with
             | some t => t.length == 4 && t.all isHexAFChar
             | none => false)
        | _ => false
      if isDummyKey then
        match parseInt2 v with
        | some _ => acc
        | none =>
            (false, acc.2 ++ [("invalid value for " ++ k ++ " in [" ++ secName ++ "]: " ++ v)])
      else
        (false, acc.2 ++ [("invalid entry in [" ++ secName ++ "]: " ++ k)]))
    (true, [])

/-- `__parse_objects(cfg, section)` for `MandatoryObjects` /
`OptionalObjects` / `ManufacturerObjects`. -/
def lintObjects (cfg : Store) (secName : String) (sec : Section) :
    Except PyErr (Bool × List String) := do
  let mut ok := true
  let mut ws : List String := []
  let mut supported : Option Int := none
  for p in sec do
    let (k, v) := p
    if lc k = "supportedobjects" then
      match parseInt10 v with
      | some n => supported := some n
      | none =>
          ok := false
          ws := ws ++ [("invalid value for SupportedObjects in [" ++ secName ++ "]")]
    else
      match parseInt10 k with
      | some _ => pure ()
      | none =>
          ok := false
          ws := ws ++ [("invalid entry in [" ++ secName ++ "]: " ++ k)]
  match supported with
  | none =>
      return (false, ws ++ [("SupportedObjects entry missing in [" ++ secName ++ "]")])
  | some supported_objects => do
      if supported_objects < (sec.length : Int) - 1 then
        ok := false
        ws := ws ++ [("too many entries in [" ++ secName ++ "]")]
      for i in List.range supported_objects.toNat do
        let key := Nat.repr (i + 1)
        match sec.get? key with
        | some raw =>
            match parseInt0 raw with
            | some index => do
                if ¬ cfg.contains (pyHex4i index) then
                  ok := false
                  ws := ws ++ [("object " ++ pyHex4i index ++ " not found")]
                if index < 0x1000 then
                  ok := false
                  ws := ws ++ [("data type objects are not supported: " ++ pyHex4i index)]
                else if lc secName = "mandatoryobjects" ∧ index ≠ 0x1000 ∧
                    index ≠ 0x1001 ∧ index ≠ 0x1018 then
                  ok := false
                  ws := ws ++ [("object " ++ pyHex4i index ++ " is not mandatory")]
                else if lc secName = "optionalobjects" ∧ 0x2000 ≤ index ∧
                    index < 0x6000 then
                  ok := false
                  ws := ws ++ [("object " ++ pyHex4i index ++ " is manufacturer-specific")]
                else if lc secName = "manufacturerobjects" ∧
                    (index < 0x2000 ∨ 0x6000 ≤ index) then
                  ok := false
                  ws := ws ++ [("object " ++ pyHex4i index ++ " is not manufacturer-specific")]
            | none =>
                ok := false
                ws := ws ++ [("invalid object index for entry " ++ key ++ " in [" ++ secName ++ "]")]
        | none =>
            ok := false
            ws := ws ++ [("entry " ++ key ++ " missing in [" ++ secName ++ "]")]
      pure (ok, ws)

/-- The key whitelists of the `__sections` table (all lower-cased). -/
def fixedSectionKeys (s : String) : Option (List String) :=
  if s = "fileinfo" then
    some [("filename"), ("fileversion"), ("filerevision"), ("edsversion"),
          ("description"), ("creationtime"), ("creationdate"), ("createdby"),
          ("modificationtime"), ("modificationdate"), ("modifiedby"), ("lasteds")]
  else if s = "devicecomissioning" then
    some [("nodeid"), ("nodename"), ("noderefd"), ("baudrate"), ("netnumber"),
          ("networkname"), ("netrefd"), ("canopenmanager"), ("lss_serialnumber")]
  else if s = "deviceinfo" then
    some [("vendorname"), ("vendornumber"), ("productname"), ("productnumber"),
          ("revisionnumber"), ("ordercode"), ("baudrate_10"), ("baudrate_20"),
          ("baudrate_50"), ("baudrate_125"), ("baudrate_250"), ("baudrate_500"),
          ("baudrate_800"), ("baudrate_1000"), ("simplebootupmaster"),
          ("simplebootupslave"), ("granularity"), ("dynamicchannelssupported"),
          ("groupmessaging"), ("nrofrxpdo"), ("nroftxpdo"), ("lss_supported"),
          ("compactpdo")]
  else none

/-- The char class `[0-9A-X]` of `__p_object` under `re.IGNORECASE` — note
the out-of-range letters `G`–`X` accepted by the source. -/
def isObjChar (c : Char) : Bool :=
  isDecChar c ∨ ('A' ≤ c ∧ c ≤ 'X') ∨ ('a' ≤ c ∧ c ≤ 'x')

/-- A successful `__p_object.match`. -/
inductive ObjSect where
  | plain (g1 : String)
  | nameOrValue (g1 : String)
  | subIdx (g1 g3 : String)
deriving DecidableEq, Repr

/-- `__p_object.match(section)`:
`([0-9A-X]{4})(Name|Value|sub([0-9A-F]+))?$` with `re.IGNORECASE`. -/
def matchObjSection (s : String) : Option ObjSect :=
  match s.data with
  | c1 :: c2 :: c3 :: c4 :: rest =>
      if (([c1, c2, c3, c4]).all isObjChar : Bool) then
        let g1 := String.mk [c1, c2, c3, c4]
        match rest with
        | [] => some (.plain g1)
        | _ =>
            match ciStrip (['N', 'a', 'm', 'e']) rest with
            | some [] => some (.nameOrValue g1)
            | _ =>
                match ciStrip (['V', 'a', 'l', 'u', 'e']) rest with
                | some [] => some (.nameOrValue g1)
                | _ =>
                    match ciStrip (['s', 'u', 'b']) rest with
                    | some t =>
                        if ¬ t.isEmpty ∧ t.all isHexAFChar then
                          some (.subIdx g1 (String.mk t))
                        else none
                    | none => none
      else none
  | _ => none

/-- `lint(cfg)` from `dcf/lint.py`: classify each section, dispatch to the
per-kind checker, return the aggregated flag and warnings.  Note that the
object branch converts `m.group(1)` with an unguarded `int(_, 16)`, so a
section name matching `[0-9A-X]{4}` with a letter in `G`–`X` raises
`ValueError`. -/
def lint (cfg : Store) : Except PyErr (Bool × List String) := do
  let mut ok := true
  let mut ws : List String := []
  for p in cfg do
    let (secName, sec) := p
    if secName = "DEFAULT" then
      pure ()
    else
      match fixedSectionKeys (lc secName) with
      | some keys =>
          for q in sec do
            let (k, _) := q
            if keys.contains (lc k) then
              pure ()
            else do
              ok := false
              ws := ws ++ [("invalid entry in [" ++ secName ++ "]: " ++ k)]
      | none =>
          if lc secName = "dummyusage" then
            let (o, w) := lintDummyUsage sec secName
            if ¬ o then ok := false
            ws := ws ++ w
          else if lc secName = "comments" then
            pure ()
          else if lc secName = "mandatoryobjects" ∨ lc secName = "optionalobjects" ∨
              lc secName = "manufacturerobjects" then do
            let (o, w) ← lintObjects cfg secName sec
            if ¬ o then ok := false
            ws := ws ++ w
          else
            match matchObjSection secName with
            | some (.plain g1) => do
                let index ← match parseInt16 g1 with
                            | some v => pure v
                            | none => throw .valueErr
                let (o, w) ← lintObject cfg secName sec index.toNat
                if ¬ o then ok := false
                ws := ws ++ w
            | some (.subIdx g1 g3) => do
                let index ← match parseInt16 g1 with
                            | some v => pure v
                            | none => throw .valueErr
                let sub_index ← match parseInt16 g3 with
                                | some v => pure v
                                | none => throw .valueErr
                let (o, w) ← lintSubObject cfg secName sec index.toNat sub_index.toNat
                if ¬ o then ok := false
                ws := ws ++ w
            | some (.nameOrValue g1) => do
                let index ← match parseInt16 g1 with
                            | some v => pure v
                            | none => throw .valueErr
                let (o, w) ← lintCompactSubObject cfg secName sec index.toNat
                if ¬ o then ok := false
                ws := ws ++ w
            | none => do
                ok := false
                ws := ws ++ [("unknown section in DCF: " ++ secName)]
  pure (ok, ws)

/-! ## CompactPDO expansion (`__add_compact_rpdo` / `__add_compact_tpdo`,
`dcf/parse.py`)

The two passes differ only in the object ranges, the `[DeviceInfo]` counter
key, the default COB-ID offset and a few display strings; they are embedded
once, parameterized over those differences. -/

/-- The parameters distinguishing the RPDO pass from the TPDO pass. -/
structure PdoPassParams where
  commBase : Nat
  mapBase : Nat
  nrKey : String
  commName : String
  cobName : String
  sub4Name : String
  sub5Name : String
  mapName : String
  cobOff : Nat
deriving Repr

def rpdoParams : PdoPassParams :=
  { commBase := 0x1400, mapBase := 0x1600, nrKey := "NrOfRxPDO",
    commName := "RPDO communication parameter",
    cobName := "COB-ID used by RPDO", sub4Name := "compatibility entry",
    sub5Name := "event-timer", mapName := "RPDO mapping parameter",
    cobOff := 0x100 }

def tpdoParams : PdoPassParams :=
  { commBase := 0x1800, mapBase := 0x1A00, nrKey := "NrOfTxPDO",
    commName := "TPDO communication parameter",
    cobName := "COB-ID used by TPDO", sub4Name := "reserved",
    sub5Name := "event timer", mapName := "TPDO mapping parameter",
    cobOff := 0x80 }

/-- The section-name suffixes of the synthesized communication
sub-objects. -/
def subSuffixes : List String :=
  [("sub0"), ("sub1"), ("sub2"), ("sub3"), ("sub4"), ("sub5"), ("sub6")]

/-- `cfg[subname] = {}` followed by the three/four option assignments of one
synthesized communication sub-object. -/
def addSub (cfg : Store) (subname pn dt acc : String) (dv : Option String) : Store :=
  let cfg := cfg.setSec subname []
  cfg.modSec subname (fun s =>
    let s := ((s.set ("ParameterName") pn).set ("DataType") dt).set ("AccessType") acc
    match dv with
    | some v => s.set ("DefaultValue") v
    | none => s)

/-- One conditional `if compact_pdo & bit:` block. -/
def addSubIf (b : Bool) (cfg : Store) (subname pn dt acc : String)
    (dv : Option String) : Store :=
  if b then addSub cfg subname pn dt acc dv else cfg

/-- The conditional creation of the mapping-parameter section
(`if name not in cfg:` at the end of the loop body). -/
def addMapIfAbsent (P : PdoPassParams) (cfg : Store) (i : Nat) (n : Int) : Store :=
  let mname := pyHex4 (P.mapBase + i)
  if cfg.contains mname then cfg
  else
    let cfg := cfg.modSec ("OptionalObjects")
      (fun s => s.set ("SupportedObjects") (toString (n + 2)))
    let cfg := cfg.modSec ("OptionalObjects")
      (fun s => s.set (toString (n + 2)) ("0x" ++ mname))
    let cfg := cfg.setSec mname []
    cfg.modSec mname (fun s =>
      ((((s.set ("ParameterName") P.mapName).set ("ObjectType") ("0x09")).set
        ("DataType") ("0x0007")).set ("AccessType") ("rw")).set
        ("CompactSubObj") ("0x40"))

/-- The loop body of the expansion pass once the communication section is
known to be absent: `n` is the parsed `SupportedObjects` count. -/
def pdoCreateBody (P : PdoPassParams) (cfg : Store) (i : Nat) (compact n : Int) :
    Store :=
  let name := pyHex4 (P.commBase + i)
  let b1 := Int.land compact 0x01 ≠ 0
  let b2 := Int.land compact 0x02 ≠ 0
  let b3 := Int.land compact 0x04 ≠ 0
  let b4 := Int.land compact 0x08 ≠ 0
  let b5 := Int.land compact 0x10 ≠ 0
  let b6 := Int.land compact 0x20 ≠ 0
  let cfg := cfg.modSec ("OptionalObjects")
    (fun s => s.set ("SupportedObjects") (toString (n + 1)))
  let cfg := cfg.modSec ("OptionalObjects")
    (fun s => s.set (toString (n + 1)) ("0x" ++ name))
  let cfg := cfg.setSec name []
  let cfg := cfg.modSec name (fun s =>
    ((s.set ("SubNumber") ("1")).set ("ParameterName") P.commName).set
      ("ObjectType") ("0x09"))
  let cfg := addSub cfg (name ++ "sub0") ("highest sub-index supported")
    ("0x0005") ("const") none
  let cfg := addSubIf b1 cfg (name ++ "sub1") P.cobName ("0x0007") ("rw")
    (some (if i < 4 then "$NODEID+0x" ++ hexStr ((i + 1) * 0x100 + P.cobOff)
           else "0x80000000"))
  let cfg := addSubIf b2 cfg (name ++ "sub2") ("transmission type") ("0x0005") ("rw") none
  let cfg := addSubIf b3 cfg (name ++ "sub3") ("inhibit time") ("0x0006") ("rw") none
  let cfg := addSubIf b4 cfg (name ++ "sub4") P.sub4Name ("0x0005") ("rw") none
  let cfg := addSubIf b5 cfg (name ++ "sub5") P.sub5Name ("0x0006") ("rw") none
  let cfg := addSubIf b6 cfg (name ++ "sub6") ("SYNC start value") ("0x0005") ("rw") none
  let sub_number : Nat := 1 + (if b1 then 1 else 0) + (if b2 then 1 else 0) +
    (if b3 then 1 else 0) + (if b4 then 1 else 0) + (if b5 then 1 else 0) +
    (if b6 then 1 else 0)
  let sub_index : Nat :=
    if b6 then 6 else if b5 then 5 else if b4 then 4 else if b3 then 3
    else if b2 then 2 else if b1 then 1 else 0
  let cfg := cfg.modSec name (fun s => s.set ("SubNumber") (Nat.repr sub_number))
  let cfg := cfg.modSec (name ++ "sub0")
    (fun s => s.set ("DefaultValue") (Nat.repr sub_index))
  addMapIfAbsent P cfg i n

/-- The loop body including the `SupportedObjects` read
(`int(cfg["OptionalObjects"]["SupportedObjects"], 0)`): a missing section,
missing key or malformed count raises. -/
def pdoCreate (P : PdoPassParams) (cfg : Store) (i : Nat) (compact : Int) :
    Option Store :=
  match cfg.find? ("OptionalObjects") with
  | none => none
  | some oo =>
      match oo.get? ("SupportedObjects") with
      | none => none
      | some nRaw =>
          match parseInt0 nRaw with
          | none => none
          | some n => some (pdoCreateBody P cfg i compact n)

/-- The `for i in range(512)` loop of the expansion pass, with the
`nr_of_pdo <= npdo` break at the head of each iteration. -/
def pdoLoop (P : PdoPassParams) :
    Store → Int → Int → Int → List Nat → Option Store
  | cfg, _, _, _, [] => some cfg
  | cfg, npdo, nr, compact, i :: is =>
      if nr ≤ npdo then some cfg
      else if cfg.contains (pyHex4 (P.commBase + i)) then
        pdoLoop P cfg npdo nr compact is
      else
        match pdoCreate P cfg i compact with
        | none => none
        | some cfg1 => pdoLoop P cfg1 (npdo + 1) nr compact is

/-- The explicit-PDO count (`npdo`) taken at the start of the pass. -/
def countPdo (P : PdoPassParams) (cfg : Store) : Nat :=
  (List.range 512).countP (fun i => cfg.contains (pyHex4 (P.commBase + i)))

/-- `__add_compact_rpdo` / `__add_compact_tpdo`: no `[DeviceInfo]` or a zero
(or absent) `CompactPDO` mask leaves the store untouched; otherwise the
loop synthesizes the missing communication and mapping sections. -/
def pdoPass (P : PdoPassParams) (cfg : Store) : Option Store :=
  match cfg.find? ("DeviceInfo") with
  | none => some cfg
  | some di =>
      let compactO : Option Int :=
        match di.getNonempty ("CompactPDO") with
        | none => some 0
        | some s => parseInt0 s
      match compactO with
      | none => none
      | some compact =>
          if compact = 0 then some cfg
          else
            let nrO : Option Int :=
              match di.getNonempty P.nrKey with
              | none => some 0
              | some s => parseInt0 s
            match nrO with
            | none => none
            | some nr =>
                pdoLoop P cfg (countPdo P cfg : Int) nr compact (List.range 512)

/-- The full CompactPDO expansion performed by `parse_file` after the raw
INI parse: the RPDO pass followed by the TPDO pass. -/
def expandStore (cfg : Store) : Option Store :=
  match pdoPass rpdoParams cfg with
  | none => none
  | some cfg1 => pdoPass tpdoParams cfg1

/-! ## Concrete scenario inputs used by the claim theorems -/

/-- The object dictionary of the PDO-reconstruction scenario: 0x1800 with
sub0 = 6, sub1 = 0x40000180, sub2 = 1, sub5 = 100; 0x1A00 with sub0 = 1,
sub1 = 0x6000 << 16 ∣ 0x01 << 8 ∣ 0x08; and a mappable entry at 0x6000/1. -/
def devC2 : DevV :=
  [(0x1800, [(0, 6), (1, 0x40000180), (2, 1), (5, 100)]),
   (0x1A00, [(0, 1), (1, 0x60000108)]),
   (0x6000, [(0, 1), (1, 0)])]

/-- A slave dictionary with RPDO1 communication and mapping records and an
8-bit PDO-mappable entry at 0x6200/1 (the data types mirror the standard
DCF: COB-ID u32, transmission u8, deadline u16, mapping words u32). -/
def slaveC1 : SlaveW :=
  { dev :=
      [(0x1400, [(0, { dt := 0x0005, write := false, value := 5 }),
                 (1, { dt := 0x0007, value := 0x200 }),
                 (2, { dt := 0x0005 }),
                 (5, { dt := 0x0006 })]),
       (0x1600, [(0, { dt := 0x0005 }),
                 (1, { dt := 0x0007 }),
                 (2, { dt := 0x0007 })]),
       (0x6200, [(0, { dt := 0x0005 }),
                 (1, { dt := 0x0005, pdo_mapping := true })])] }

/-- RPDO1 state for the disable-then-enable scenario: enabled with COB-ID
0x200, transmission type 0, no active mapping. -/
def pdoC1 : PDOc := { cob_id := 0x200 }

/-- The overlay `rpdo: 1: cob_id 0x201, transmission 255,
mapping [index 0x6200 sub_index 1]`. -/
def cfgC1 : PdoCfg :=
  { cob_id := some (.val 0x201), transmission := some 255,
    mapping := some [(0x6200, 1)] }

/-- The six records the claim expects (first record: *old* COB-ID with the
disable bit). -/
def claimedC1 : List (List Nat) :=
  [[0x00, 0x14, 1, 4, 0, 0, 0, 0x00, 0x02, 0x00, 0x80],
   [0x00, 0x14, 2, 1, 0, 0, 0, 255],
   [0x00, 0x16, 0, 1, 0, 0, 0, 0],
   [0x00, 0x16, 1, 4, 0, 0, 0, 0x08, 0x01, 0x00, 0x62],
   [0x00, 0x16, 0, 1, 0, 0, 0, 1],
   [0x00, 0x14, 1, 4, 0, 0, 0, 0x01, 0x02, 0x00, 0x00]]

/-- The six records the code emits (first record: *new* COB-ID with the
disable bit, 0x80000201). -/
def emittedC1 : List (List Nat) :=
  [[0x00, 0x14, 1, 4, 0, 0, 0, 0x01, 0x02, 0x00, 0x80],
   [0x00, 0x14, 2, 1, 0, 0, 0, 255],
   [0x00, 0x16, 0, 1, 0, 0, 0, 0],
   [0x00, 0x16, 1, 4, 0, 0, 0, 0x08, 0x01, 0x00, 0x62],
   [0x00, 0x16, 0, 1, 0, 0, 0, 1],
   [0x00, 0x14, 1, 4, 0, 0, 0, 0x01, 0x02, 0x00, 0x00]]

/-- RPDO state for the event-deadline scenario: enabled COB-ID 0x200,
current event timer 50, current event deadline 0. -/
def pdoC6 : PDOc := { cob_id := 0x200, event_timer := 50 }

/-- Overlay supplying `event_timer: 50` (unchanged) and
`event_deadline: 70` (changed). -/
def cfgC6 : PdoCfg := { event_timer := some 50, event_deadline := some 70 }

/-- Overlay supplying only `event_deadline: 70`. -/
def cfgC6b : PdoCfg := { event_deadline := some 70 }

/-- A slave with a 0x1016 heartbeat-consumer object (sub 1 free) and two
prior configuration records, for the heartbeat-wiring witness. -/
def slaveC10 : SlaveW :=
  { dev := [(0x1016, [(0, { dt := 0x0005, value := 2 }),
                      (1, { dt := 0x0007, value := 0 }),
                      (2, { dt := 0x0007, value := 0 })]),
            (0x1017, [(0, { dt := 0x0006, value := 0 })])],
    heartbeat_consumer := true,
    sdo := [[0x17, 0x10, 0, 2, 0, 0, 0, 0xF4, 0x01], [0x00, 0x14, 2, 1, 0, 0, 0, 255]] }

/-- A store whose only section is `[GGGG]`: its name matches the (sloppy)
object pattern `[0-9A-X]{4}` but is not hexadecimal. -/
def storeC8 : Store := [(("GGGG"), [])]

/-- The sub-object section of the `$NODEID` range-check scenario, with the
given `LowLimit` literal. -/
def secC3 (lowLimit : String) : Section :=
  [(("DataType"), ("0x0007")), (("LowLimit"), lowLimit)]

/-- Decode of a lower-cased hexadecimal digit character. -/
def lhexVal (c : Char) : Nat :=
  if 97 ≤ c.toNat then c.toNat - 87 else c.toNat - 48

/-- Bounds relating the two object ranges of an expansion pass; both
concrete parameter records satisfy them. -/
def passBounds (P : PdoPassParams) : Prop :=
  P.commBase + 512 ≤ P.mapBase ∧ P.mapBase + 512 ≤ 65536

/-- The slave of the heartbeat witness after wiring: the 0x1016/1 write
(value `(1 << 16) | 300`) prepended to the two prior records. -/
def slaveC10' : SlaveW :=
  { dev := slaveC10.dev, heartbeat_consumer := true,
    sdo := [[0x16, 0x10, 1, 4, 0, 0, 0, 0x2C, 0x01, 0x01, 0x00],
            [0x17, 0x10, 0, 2, 0, 0, 0, 0xF4, 0x01],
            [0x00, 0x14, 2, 1, 0, 0, 0, 255]] }

/-- A store for the idempotence witness: CompactPDO mask 0x01 with one
implicit Receive-PDO to synthesize. -/
def storeC7 : Store :=
  [(("DeviceInfo"), [(("CompactPDO"), ("0x01")), (("NrOfRxPDO"), ("1"))]),
   (("OptionalObjects"), [(("SupportedObjects"), ("0"))])]

/-- The expansion of `storeC7`: the synthesized `[1400]`, `[1400sub0]`,
`[1400sub1]` and `[1600]` sections, registered in `[OptionalObjects]`. -/
def storeC7' : Store :=
  [(("DeviceInfo"), [(("CompactPDO"), ("0x01")), (("NrOfRxPDO"), ("1"))]),
   (("OptionalObjects"),
    [(("SupportedObjects"), ("2")), (("1"), ("0x1400")), (("2"), ("0x1600"))]),
   (("1400"),
    [(("SubNumber"), ("2")),
     (("ParameterName"), ("RPDO communication parameter")),
     (("ObjectType"), ("0x09"))]),
   (("1400sub0"),
    [(("ParameterName"), ("highest sub-index supported")),
     (("DataType"), ("0x0005")), (("AccessType"), ("const")),
     (("DefaultValue"), ("1"))]),
   (("1400sub1"),
    [(("ParameterName"), ("COB-ID used by RPDO")),
     (("DataType"), ("0x0007")), (("AccessType"), ("rw")),
     (("DefaultValue"), ("$NODEID+0x200"))]),
   (("1600"),
    [(("ParameterName"), ("RPDO mapping parameter")),
     (("ObjectType"), ("0x09")), (("DataType"), ("0x0007")),
     (("AccessType"), ("rw")), (("CompactSubObj"), ("0x40"))])]

/-! ## Claim theorems -/

theorem lc_length (s : String) : (lc s).length = s.length := by
  show (s.data.map lowerChar).length = s.data.length
  exact List.length_map s.data lowerChar

theorem lcEq_refl (a : String) : lcEq a a = true :=
  beq_self_eq_true (lc a)

theorem lc_eq_of_lcEq {a b : String} (h : lcEq a b = true) : lc a = lc b := by
  simpa [lcEq] using h

theorem lcEq_false_of_length_ne {a b : String} (h : a.length ≠ b.length) :
    lcEq a b = false := by
  rcases hEq : lcEq a b with _ | _
  · rfl
  · exact absurd (by
      have := congrArg String.length (lc_eq_of_lcEq hEq)
      simpa [lc_length] using this) h

theorem lcEq_trans_left {a b s : String} (h : lcEq a b = true) :
    lcEq a s = lcEq b s := by
  simp [lcEq, lc_eq_of_lcEq h]

theorem Store.contains_setSec (cfg : Store) (k : String) (v : Section) (s : String) :
    (cfg.setSec k v).contains s = (cfg.contains s || lcEq k s) := by
  induction cfg with
  | nil => simp [setSec, contains]
  | cons hd tl ih =>
      obtain ⟨k₀, v₀⟩ := hd
      by_cases h : lcEq k₀ k = true
      · have hks : lcEq k s = lcEq k₀ s := by
          rw [lcEq_trans_left h]
        simp only [setSec, h, if_pos, contains, hks]
        cases lcEq k₀ s <;> simp
      · simp only [setSec, h, if_neg, Bool.false_eq_true, not_false_iff, contains, ih]
        cases lcEq k₀ s <;> simp

theorem Store.contains_modSec (cfg : Store) (k : String) (f : Section → Section) (s : String) :
    (cfg.modSec k f).contains s = cfg.contains s := by
  induction cfg with
  | nil => rfl
  | cons hd tl ih =>
      obtain ⟨k₀, v₀⟩ := hd
      by_cases h : lcEq k₀ k = true <;> simp [modSec, h, contains, ih]

theorem Store.find?_setSec_ne (cfg : Store) (k : String) (v : Section) (s : String)
    (h : lcEq k s = false) : (cfg.setSec k v).find? s = cfg.find? s := by
  induction cfg with
  | nil => simp [setSec, find?, h]
  | cons hd tl ih =>
      obtain ⟨k₀, v₀⟩ := hd
      by_cases h0 : lcEq k₀ k = true
      · have h2 : lcEq k₀ s = false := by
          rw [lcEq_trans_left h0]; exact h
        simp [setSec, h0, find?, h2]
      · by_cases h3 : lcEq k₀ s = true <;> simp [setSec, h0, find?, h3, ih]

theorem Store.find?_modSec_ne (cfg : Store) (k : String) (f : Section → Section) (s : String)
    (h : lcEq k s = false) : (cfg.modSec k f).find? s = cfg.find? s := by
  induction cfg with
  | nil => rfl
  | cons hd tl ih =>
      obtain ⟨k₀, v₀⟩ := hd
      by_cases h0 : lcEq k₀ k = true
      · have h2 : lcEq k₀ s = false := by
          rw [lcEq_trans_left h0]; exact h
        simp [modSec, h0, find?, h2]
      · by_cases h3 : lcEq k₀ s = true <;> simp [modSec, h0, find?, h3, ih]

theorem Store.contains_of_find? {cfg : Store} {s : String} {sec : Section}
    (h : cfg.find? s = some sec) : cfg.contains s = true := by
  induction cfg with
  | nil => simp [find?] at h
  | cons hd tl ih =>
      obtain ⟨k₀, v₀⟩ := hd
      by_cases h0 : lcEq k₀ s = true
      · simp [contains, h0]
      · simp only [find?, h0, if_neg, Bool.false_eq_true, not_false_iff] at h
        simp [contains, h0, ih h]

theorem pyHex4_length {n : Nat} (h : n < 65536) : (pyHex4 n).length = 4 := by
  simp [pyHex4, h, String.length]

theorem leBytes_length (w v : Nat) : (leBytes w v).length = w := by
  induction w generalizing v with
  | zero => rfl
  | succ w ih => simp [leBytes, ih]

/-- Claim C5: `concise_value(0x1017, 0, 500)` with data type UNSIGNED16
yields exactly the nine bytes `17 10 00 02 00 00 00 F4 01` — u16 index LE,
u8 sub-index, u32 length LE, little-endian payload. -/
theorem C5_concise_encoding :
    DataType.concise_value 0x0006 0x1017 0 500 =
      .ok [0x17, 0x10, 0x00, 0x02, 0x00, 0x00, 0x00, 0xF4, 0x01] := rfl

/-- Claim C4 (failing evaluation): for UNSIGNED24 the encoder emits an
11-byte record — the payload is packed with the 4-byte `L` format — while
the claimed total length `⌈bits/8⌉ + 7` is 10 (and the length field inside
the record still says 3).  The 24/40/48/56-bit types are therefore *not*
serialized in their native width and the record length property fails. -/
theorem C4_padded_width :
    (DataType.concise_value 0x0016 0x2000 0 0).map List.length = .ok 11 ∧
    (DataType.bits 0x0016).map (fun b => (b + 7) / 8 + 7) = some 10 ∧
    DataType.concise_value 0x0016 0x2000 0 0 =
      .ok [0x00, 0x20, 0, 3, 0, 0, 0, 0, 0, 0, 0] :=
  ⟨rfl, rfl, rfl⟩

/-- Claim C2 (counterexample): on the given dictionary the resolver stores
the raw parsed COB-ID word 0x40000180 in `cob_id`, not the claimed CAN
identifier 0x180. -/
theorem C2_counterexample :
    (PDO.from_device devC2 0x1800).map PDOr.cob_id = .ok 0x40000180 ∧
    (0x40000180 : Int) ≠ 0x180 :=
  ⟨rfl, by decide⟩

/-- Claim C2 (amended): the resolved TPDO has `cob_id = 0x40000180` (the
raw word: bit 30 set, CAN identifier bits 0x180), `transmission_type = 1`,
`event_timer = 100`, and mapping slot 1 references the dictionary
sub-object 0x6000/1. -/
theorem C2_pdo_reconstruction :
    PDO.from_device devC2 0x1800 =
      .ok { cob_id := 0x40000180, transmission_type := 1, inhibit_time := 0,
            event_timer := 100, event_deadline := 0, sync_start_value := 0,
            n := 1, mapping := [(1, .obj 0x6000 1)] } := rfl

/-- Claim C3 (counterexample): the range check accepts
`DefaultValue = $NODEID+1` against `LowLimit = 2` — the bound is shifted
down by 1 (to 1) because the value carries `$NODEID` and the bound does
not, and `1 < 1` fails — whereas the claim says this case is rejected with
a warning. -/
theorem C3_counterexample :
    lintValue (secC3 ("2")) ("6200sub1") ("DefaultValue") ("$NODEID+1") =
      .ok (true, []) := rfl

/-- Claim C3 (amended): `DefaultValue = $NODEID+1` is accepted against
`LowLimit = 1`, accepted against `LowLimit = 2` (the bound shifts down by
1 for the minimum node-ID), and accepted against `LowLimit = $NODEID+1`;
rejection only starts at `LowLimit = 3`. -/
theorem C3_nodeid_range_check :
    lintValue (secC3 ("1")) ("6200sub1") ("DefaultValue") ("$NODEID+1") =
        .ok (true, []) ∧
    lintValue (secC3 ("2")) ("6200sub1") ("DefaultValue") ("$NODEID+1") =
        .ok (true, []) ∧
    lintValue (secC3 ("$NODEID+1")) ("6200sub1") ("DefaultValue") ("$NODEID+1") =
        .ok (true, []) ∧
    lintValue (secC3 ("3")) ("6200sub1") ("DefaultValue") ("$NODEID+1") =
        .ok (false, [("DefaultValue underflow in [6200sub1]")]) :=
  ⟨rfl, rfl, rfl, rfl⟩

/-- Claim C1 (counterexample): the emitted six-record sequence differs from
the claimed one — the first record writes `0x80000000 ∣ 0x201` (the *new*
COB-ID with the disable bit: `pdo.cob_id` has already been reassigned when
`sdo.append(... pdo.cob_id | 0x80000000)` runs), not `0x80000000 ∣ 0x200`. -/
theorem C1_counterexample :
    (parse_pdo_config slaveC1 1 pdoC1 0x1400 cfgC1 0x680).map (fun r => r.1) =
      .ok emittedC1 ∧ emittedC1 ≠ claimedC1 :=
  ⟨rfl, by decide⟩

/-- Claim C1 (amended): the configurator emits exactly six concise-SDO
records in order — `0x1400/1 ← 0x80000000 ∣ 0x201` (the *new* COB-ID with
the disable bit set), `0x1400/2 ← 255`, `0x1600/0 ← 0`,
`0x1600/1 ← 0x62000108`, `0x1600/0 ← 1`, `0x1400/1 ← 0x201` — and leaves
the PDO with COB-ID 0x201, transmission 255 and one mapping entry. -/
theorem C1_disable_then_enable :
    parse_pdo_config slaveC1 1 pdoC1 0x1400 cfgC1 0x680 =
      .ok (emittedC1,
           { cob_id := 0x201, transmission_type := 255, inhibit_time := 0,
             event_timer := 0, event_deadline := 0, sync_start_value := 0,
             n := 1, mapping := [(1, (0x6200, 1))] },
           0x680) := rfl

/-- Claim C6 (failing evaluation): with overlay `event_timer: 50` (equal to
the current value, so no timer write) and `event_deadline: 70` (a change),
the RPDO path writes the stale local `event_timer` — the sub-5 record
carries 50, not the overlay-supplied 70; and when the overlay carries only
`event_deadline`, the read of the unbound local raises `NameError`. -/
theorem C6_stale_event_timer :
    (parse_pdo_config slaveC1 1 pdoC6 0x1400 cfgC6 0x680).map (fun r => r.1) =
      .ok [[0x00, 0x14, 1, 4, 0, 0, 0, 0x00, 0x02, 0x00, 0x80],
           [0x00, 0x14, 5, 2, 0, 0, 0, 50, 0],
           [0x00, 0x14, 1, 4, 0, 0, 0, 0x00, 0x02, 0x00, 0x00]] ∧
    parse_pdo_config slaveC1 1 pdoC6 0x1400 cfgC6b 0x680 = .error .nameErr :=
  ⟨rfl, rfl⟩

/-- Claim C8 (failing evaluation): on a store whose only section is
`[GGGG]` the linter raises `ValueError` instead of warning and returning
`False`: the section-name pattern is `[0-9A-X]{4}` (not `[0-9A-F]{4}`), so
`GGGG` matches and the unguarded `int("GGGG", 16)` fails. -/
theorem C8_lint_raises : lint storeC8 = .error .valueErr := rfl

/-- Claim C9: device construction fails with `KeyError` when 0x1000/0 or
0x1018/1 is missing, while missing 0x1018/2, 3 or 4 are tolerated —
product code, revision number and serial number then default to 0 and
construction succeeds. -/
theorem C9_identity_defaults (objs : DevV) :
    (objs.sub? 0x1000 0 = none → deviceIdentity none none objs = .error .keyErr) ∧
    (objs.sub? 0x1018 1 = none → deviceIdentity none none objs = .error .keyErr) ∧
    (∀ a b, objs.sub? 0x1000 0 = some a → objs.sub? 0x1018 1 = some b →
      objs.sub? 0x1018 2 = none → objs.sub? 0x1018 3 = none →
      objs.sub? 0x1018 4 = none →
      deviceIdentity none none objs = .ok ⟨a, b, 0, 0, 0⟩) := by
  refine ⟨fun h => ?_, fun h => ?_, fun a b h1 h2 h3 h4 h5 => ?_⟩
  · simp only [deviceIdentity, h]
    rfl
  · rcases h0 : objs.sub? 0x1000 0 with _ | v <;>
      simp only [deviceIdentity, h0, h] <;> rfl
  · simp only [deviceIdentity, h1, h2, h3, h4, h5, overrideInt, Option.getD_none]
    rfl

/-- Witness for C9 at concrete dictionaries: an empty dictionary and one
missing 0x1018/1 raise `KeyError`; a dictionary with only 0x1000/0 and
0x1018/1 succeeds with zero defaults. -/
theorem C9_identity_defaults_witness :
    deviceIdentity none none [] = .error .keyErr ∧
    deviceIdentity none none [(0x1000, [(0, 7)]), (0x1018, [(0, 4)])] =
      .error .keyErr ∧
    deviceIdentity none none [(0x1000, [(0, 7)]), (0x1018, [(1, 42)])] =
      .ok ⟨7, 42, 0, 0, 0⟩ :=
  ⟨(C9_identity_defaults []).1 rfl,
   (C9_identity_defaults _).2.1 rfl,
   (C9_identity_defaults _).2.2 7 42 rfl rfl rfl rfl rfl⟩

theorem packInt_eq_of_some {w : Nat} {s : Bool} {v : Int} {a : List Nat}
    (h : packInt w s v = some a) :
    a = leBytes w ((v % (2 ^ (8 * w))).toNat) := by
  unfold packInt at h
  dsimp only at h
  by_cases hc : ((if s then -(2 ^ (8 * w - 1)) else 0 : Int) ≤ v ∧
      v ≤ (if s then 2 ^ (8 * w - 1) - 1 else 2 ^ (8 * w) - 1 : Int))
  · rw [if_pos hc] at h
    exact (Option.some.inj h).symm
  · rw [if_neg hc] at h
    exact absurd h (by simp)

/-- Every record the encoder accepts begins with the two little-endian
index bytes. -/
theorem concise_value_take2 {dt idx sub : Nat} {v : Int} {r : List Nat}
    (h : DataType.concise_value dt idx sub v = .ok r) :
    r.take 2 = leBytes 2 (((idx : Int) % 2 ^ 16).toNat) := by
  unfold DataType.concise_value at h
  split at h
  · exact absurd h (by simp)
  · split at h
    · exact absurd h (by simp)
    · split at h
      · exact absurd h (by simp)
      · dsimp only at h
        split at h
        case _ a b2 c d ha hb hc hd =>
          have hr : r = a ++ b2 ++ c ++ d := (Except.ok.inj h).symm
          have ha2 : a = leBytes 2 (((idx : Int) % 2 ^ 16).toNat) := by
            have h0 := packInt_eq_of_some ha
            simpa using h0
          have hlen : a.length = 2 := by
            rw [ha2]; exact leBytes_length 2 _
          subst hr
          have htake : (a ++ (b2 ++ (c ++ d))).take 2 = a := by
            rw [← hlen]; exact List.take_left _ _
          rw [List.append_assoc, List.append_assoc, htake]
          exact ha2
        case _ => exact absurd h (by simp)

/-- `Slave.concise_value` targeting object `idx` emits a record whose first
two bytes are the little-endian index. -/
theorem slave_concise_take2 {sl : SlaveW} {idx sub : Nat} {v : Int}
    {r : List Nat} (h : sl.concise_value idx sub v = .ok r) :
    r.take 2 = leBytes 2 (((idx : Int) % 2 ^ 16).toNat) := by
  unfold SlaveW.concise_value at h
  split at h
  · exact absurd h (by simp)
  · split at h
    · exact concise_value_take2 h
    · split at h
      · exact concise_value_take2 h
      · exact absurd h (by simp)

/-- The non-consumer 0x1016 clean-up only prepends 0x1016-records. -/
theorem disableStale_sdo (m : Int) (obj : ObjT) :
    ∀ (sl sl' : SlaveW), disableStale m sl obj = .ok sl' →
      ∃ pre, sl'.sdo = pre ++ sl.sdo ∧ ∀ r ∈ pre, r.take 2 = [0x16, 0x10] := by
  induction obj with
  | nil =>
      intro sl sl' h
      obtain rfl : sl = sl' := Except.ok.inj h
      exact ⟨[], rfl, fun r hr => absurd hr (List.not_mem_nil r)⟩
  | cons hd rest ih =>
      intro sl sl' h
      obtain ⟨si, so⟩ := hd
      unfold disableStale at h
      dsimp only at h
      split at h
      · exact ih sl sl' h
      · split at h
        · rcases hrec : sl.concise_value 0x1016 si
              (pyMask (pyShr so.value 16) 8 * 65536) with e | r
          · rw [hrec] at h
            exact absurd h (fun hh => Except.noConfusion hh)
          · rw [hrec] at h
            obtain ⟨pre, hpre, hall⟩ :=
              ih { sl with sdo := r :: sl.sdo } sl' h
            refine ⟨pre ++ [r], by simpa using hpre, ?_⟩
            intro x hx
            rcases List.mem_append.mp hx with hx | hx
            · exact hall x hx
            · have hx : x = r := by simpa using hx
              subst hx
              exact slave_concise_take2 hrec
        · exact ih sl sl' h

/-- Claim C10: whatever the heartbeat wiring of `Master.from_config` does
to a slave — writing a consumer entry into a free or matching 0x1016 slot,
or zeroing stale 0x1016 entries — every record it adds is inserted at
position 0, so the final `sdo` list is the prior list with only
0x1016-records prepended. -/
theorem C10_heartbeat_prepended (m hb : Int) (sl sl' : SlaveW)
    (h : wireHeartbeat m hb sl = .ok sl') :
    ∃ pre, sl'.sdo = pre ++ sl.sdo ∧ ∀ r ∈ pre, r.take 2 = [0x16, 0x10] := by
  unfold wireHeartbeat at h
  split at h
  · split at h
    case _ obj hobj =>
      dsimp only at h
      generalize (if findHbSlot m obj = 0 then findFreeSlot obj
        else findHbSlot m obj) = k at h
      split at h
      · rcases hrec : sl.concise_value 0x1016 k
            (pyMask m 8 * 65536 + pyMask hb 16) with e | r
        · rw [hrec] at h
          exact absurd h (fun hh => Except.noConfusion hh)
        · rw [hrec] at h
          obtain rfl : ({ sl with sdo := r :: sl.sdo } : SlaveW) = sl' :=
            Except.ok.inj h
          refine ⟨[r], rfl, ?_⟩
          intro x hx
          have hx : x = r := by simpa using hx
          subst hx
          exact slave_concise_take2 hrec
      · obtain rfl : sl = sl' := Except.ok.inj h
        exact ⟨[], rfl, fun r hr => absurd hr (List.not_mem_nil r)⟩
    case _ hobj =>
      obtain rfl : sl = sl' := Except.ok.inj h
      exact ⟨[], rfl, fun r hr => absurd hr (List.not_mem_nil r)⟩
  · split at h
    · exact disableStale_sdo m _ sl sl' h
    · obtain rfl : sl = sl' := Except.ok.inj h
      exact ⟨[], rfl, fun r hr => absurd hr (List.not_mem_nil r)⟩

/-- Witness for C10: wiring master node-ID 1 with heartbeat 300 into the
concrete slave prepends exactly the 0x1016/1 record. -/
theorem C10_heartbeat_prepended_witness :
    ∃ pre, slaveC10'.sdo = pre ++ slaveC10.sdo ∧
      ∀ r ∈ pre, r.take 2 = [0x16, 0x10] :=
  C10_heartbeat_prepended 1 300 slaveC10 slaveC10' rfl

/-! ## Idempotence of the CompactPDO expansion (claim C7)

The second run of either pass leaves an already-expanded store unchanged:
after the first run either the PDO count has reached `NrOfRxPDO`/
`NrOfTxPDO` (the loop breaks immediately) or all 512 communication
sections exist (every iteration `continue`s).  The supporting lemmas
establish that the creation step adds exactly the expected sections,
never removes one, and never touches `[DeviceInfo]`. -/

theorem lhexVal_lower_hexDigit : ∀ x : Fin 16,
    lhexVal (lowerChar (hexDigit x.val)) = x.val := by decide

theorem lowerChar_hexDigit_inj {x y : Nat} (hx : x < 16) (hy : y < 16)
    (h : lowerChar (hexDigit x) = lowerChar (hexDigit y)) : x = y := by
  have h1 := lhexVal_lower_hexDigit ⟨x, hx⟩
  have h2 := lhexVal_lower_hexDigit ⟨y, hy⟩
  simp only at h1 h2
  rw [← h1, ← h2, h]

theorem pyHex4_lc_inj {a b : Nat} (ha : a < 65536) (hb : b < 65536)
    (h : lcEq (pyHex4 a) (pyHex4 b) = true) : a = b := by
  have hla := lc_eq_of_lcEq h
  unfold pyHex4 at hla
  rw [if_pos ha, if_pos hb] at hla
  have hdata := congrArg String.data hla
  simp only [lc, List.map] at hdata
  obtain ⟨e3, e2, e1, e0⟩ : lowerChar (hexDigit (a / 4096 % 16)) =
      lowerChar (hexDigit (b / 4096 % 16)) ∧
      lowerChar (hexDigit (a / 256 % 16)) = lowerChar (hexDigit (b / 256 % 16)) ∧
      lowerChar (hexDigit (a / 16 % 16)) = lowerChar (hexDigit (b / 16 % 16)) ∧
      lowerChar (hexDigit (a % 16)) = lowerChar (hexDigit (b % 16)) := by
    simpa using hdata
  have d3 := lowerChar_hexDigit_inj (Nat.mod_lt _ (by norm_num))
    (Nat.mod_lt _ (by norm_num)) e3
  have d2 := lowerChar_hexDigit_inj (Nat.mod_lt _ (by norm_num))
    (Nat.mod_lt _ (by norm_num)) e2
  have d1 := lowerChar_hexDigit_inj (Nat.mod_lt _ (by norm_num))
    (Nat.mod_lt _ (by norm_num)) e1
  have d0 := lowerChar_hexDigit_inj (Nat.mod_lt _ (by norm_num))
    (Nat.mod_lt _ (by norm_num)) e0
  omega

theorem lcEq_pyHex4_of_ne {a b : Nat} (ha : a < 65536) (hb : b < 65536)
    (hne : a ≠ b) : lcEq (pyHex4 a) (pyHex4 b) = false := by
  rcases hEq : lcEq (pyHex4 a) (pyHex4 b) with _ | _
  · rfl
  · exact absurd (pyHex4_lc_inj ha hb hEq) hne

theorem length_append_str (a b : String) : (a ++ b).length = a.length + b.length :=
  String.length_append a b

theorem contains_addSub (cfg : Store) (k pn dt acc : String) (dv : Option String)
    (s : String) : (addSub cfg k pn dt acc dv).contains s =
      (cfg.contains s || lcEq k s) := by
  unfold addSub
  dsimp only
  rw [Store.contains_modSec, Store.contains_setSec]

theorem find?_addSub_ne (cfg : Store) (k pn dt acc : String) (dv : Option String)
    (s : String) (h : lcEq k s = false) :
    (addSub cfg k pn dt acc dv).find? s = cfg.find? s := by
  unfold addSub
  dsimp only
  rw [Store.find?_modSec_ne _ _ _ _ h, Store.find?_setSec_ne _ _ _ _ h]

theorem contains_addSubIf (b : Bool) (cfg : Store) (k pn dt acc : String)
    (dv : Option String) (s : String) :
    (addSubIf b cfg k pn dt acc dv).contains s =
      (cfg.contains s || (b && lcEq k s)) := by
  cases b <;> simp [addSubIf, contains_addSub]

theorem find?_addSubIf_ne (b : Bool) (cfg : Store) (k pn dt acc : String)
    (dv : Option String) (s : String) (h : lcEq k s = false) :
    (addSubIf b cfg k pn dt acc dv).find? s = cfg.find? s := by
  cases b <;> simp [addSubIf, find?_addSub_ne _ _ _ _ _ _ _ h]

theorem contains_addMapIfAbsent (P : PdoPassParams) (cfg : Store) (i : Nat)
    (n : Int) (s : String) :
    (addMapIfAbsent P cfg i n).contains s =
      (cfg.contains s ||
        (!cfg.contains (pyHex4 (P.mapBase + i)) && lcEq (pyHex4 (P.mapBase + i)) s)) := by
  unfold addMapIfAbsent
  dsimp only
  split
  case isTrue h => simp [h]
  case isFalse h =>
    rw [Store.contains_modSec, Store.contains_setSec, Store.contains_modSec,
      Store.contains_modSec]
    simp [h]

theorem find?_addMapIfAbsent_ne (P : PdoPassParams) (cfg : Store) (i : Nat)
    (n : Int) (s : String) (h1 : lcEq ("OptionalObjects") s = false)
    (h2 : lcEq (pyHex4 (P.mapBase + i)) s = false) :
    (addMapIfAbsent P cfg i n).find? s = cfg.find? s := by
  unfold addMapIfAbsent
  dsimp only
  split
  · rfl
  · rw [Store.find?_modSec_ne _ _ _ _ h2, Store.find?_setSec_ne _ _ _ _ h2,
      Store.find?_modSec_ne _ _ _ _ h1, Store.find?_modSec_ne _ _ _ _ h1]

/-- Membership is monotone under one creation step. -/
theorem contains_pdoCreateBody_mono (P : PdoPassParams) (cfg : Store) (i : Nat)
    (compact n : Int) (s : String) (h : cfg.contains s = true) :
    (pdoCreateBody P cfg i compact n).contains s = true := by
  unfold pdoCreateBody
  dsimp only
  rw [contains_addMapIfAbsent, Store.contains_modSec, Store.contains_modSec,
    contains_addSubIf, contains_addSubIf, contains_addSubIf, contains_addSubIf,
    contains_addSubIf, contains_addSubIf, contains_addSub,
    Store.contains_modSec, Store.contains_setSec, Store.contains_modSec,
    Store.contains_modSec]
  simp [h]

/-- The creation step for slot `i` adds the communication section of `i`. -/
theorem contains_pdoCreateBody_self (P : PdoPassParams) (cfg : Store) (i : Nat)
    (compact n : Int) :
    (pdoCreateBody P cfg i compact n).contains (pyHex4 (P.commBase + i)) = true := by
  unfold pdoCreateBody
  dsimp only
  rw [contains_addMapIfAbsent, Store.contains_modSec, Store.contains_modSec,
    contains_addSubIf, contains_addSubIf, contains_addSubIf, contains_addSubIf,
    contains_addSubIf, contains_addSubIf, contains_addSub,
    Store.contains_modSec, Store.contains_setSec, Store.contains_modSec,
    Store.contains_modSec]
  simp [lcEq_refl]

/-- Membership of any section name distinct (case-insensitively) from every
name the creation step touches is unchanged. -/
theorem contains_pdoCreateBody_other (P : PdoPassParams) (cfg : Store) (i : Nat)
    (compact n : Int) (s : String)
    (hname : lcEq (pyHex4 (P.commBase + i)) s = false)
    (hsub : ∀ d ∈ subSuffixes, lcEq (pyHex4 (P.commBase + i) ++ d) s = false)
    (hmap : lcEq (pyHex4 (P.mapBase + i)) s = false) :
    (pdoCreateBody P cfg i compact n).contains s = cfg.contains s := by
  unfold pdoCreateBody
  dsimp only
  rw [contains_addMapIfAbsent, Store.contains_modSec, Store.contains_modSec,
    contains_addSubIf, contains_addSubIf, contains_addSubIf, contains_addSubIf,
    contains_addSubIf, contains_addSubIf, contains_addSub,
    Store.contains_modSec, Store.contains_setSec, Store.contains_modSec,
    Store.contains_modSec]
  simp [hname, hmap, hsub ("sub0") (by simp [subSuffixes]),
    hsub ("sub1") (by simp [subSuffixes]), hsub ("sub2") (by simp [subSuffixes]),
    hsub ("sub3") (by simp [subSuffixes]), hsub ("sub4") (by simp [subSuffixes]),
    hsub ("sub5") (by simp [subSuffixes]), hsub ("sub6") (by simp [subSuffixes])]

/-- The creation step never touches `[DeviceInfo]` (nor any other section
whose name is neither `OptionalObjects` nor one of the created names). -/
theorem find?_pdoCreateBody_other (P : PdoPassParams) (cfg : Store) (i : Nat)
    (compact n : Int) (s : String)
    (hoo : lcEq ("OptionalObjects") s = false)
    (hname : lcEq (pyHex4 (P.commBase + i)) s = false)
    (hsub : ∀ d ∈ subSuffixes, lcEq (pyHex4 (P.commBase + i) ++ d) s = false)
    (hmap : lcEq (pyHex4 (P.mapBase + i)) s = false) :
    (pdoCreateBody P cfg i compact n).find? s = cfg.find? s := by
  unfold pdoCreateBody
  dsimp only
  rw [find?_addMapIfAbsent_ne _ _ _ _ _ hoo hmap,
    Store.find?_modSec_ne _ _ _ _ (hsub ("sub0") (by simp [subSuffixes])),
    Store.find?_modSec_ne _ _ _ _ hname,
    find?_addSubIf_ne _ _ _ _ _ _ _ _ (hsub ("sub6") (by simp [subSuffixes])),
    find?_addSubIf_ne _ _ _ _ _ _ _ _ (hsub ("sub5") (by simp [subSuffixes])),
    find?_addSubIf_ne _ _ _ _ _ _ _ _ (hsub ("sub4") (by simp [subSuffixes])),
    find?_addSubIf_ne _ _ _ _ _ _ _ _ (hsub ("sub3") (by simp [subSuffixes])),
    find?_addSubIf_ne _ _ _ _ _ _ _ _ (hsub ("sub2") (by simp [subSuffixes])),
    find?_addSubIf_ne _ _ _ _ _ _ _ _ (hsub ("sub1") (by simp [subSuffixes])),
    find?_addSub_ne _ _ _ _ _ _ _ (hsub ("sub0") (by simp [subSuffixes])),
    Store.find?_modSec_ne _ _ _ _ hname,
    Store.find?_setSec_ne _ _ _ _ hname,
    Store.find?_modSec_ne _ _ _ _ hoo,
    Store.find?_modSec_ne _ _ _ _ hoo]

theorem countP_congr_eq {l : List Nat} {f g : Nat → Bool}
    (h : ∀ a ∈ l, f a = g a) : l.countP f = l.countP g := by
  induction l with
  | nil => rfl
  | cons a t ih =>
      simp only [List.countP_cons]
      rw [ih (fun x hx => h x (List.mem_cons_of_mem a hx)),
        h a (List.mem_cons_self a t)]

theorem countP_le_countP {l : List Nat} {f g : Nat → Bool}
    (h : ∀ a ∈ l, f a = true → g a = true) : l.countP f ≤ l.countP g := by
  induction l with
  | nil => exact Nat.le_refl 0
  | cons a t ih =>
      have ht := ih (fun x hx hfx => h x (List.mem_cons_of_mem a hx) hfx)
      simp only [List.countP_cons]
      rcases hfa : f a with _ | _
      · rcases hga : g a with _ | _ <;> simp [hfa, hga] <;> omega
      · have hga := h a (List.mem_cons_self a t) hfa
        simp [hfa, hga]
        omega

theorem countP_update {l : List Nat} {f g : Nat → Bool} {i : Nat}
    (hnd : l.Nodup) (hmem : i ∈ l)
    (hcong : ∀ j ∈ l, j ≠ i → g j = f j) (hgi : g i = true) (hfi : f i = false) :
    l.countP g = l.countP f + 1 := by
  induction l with
  | nil => cases hmem
  | cons a t ih =>
      by_cases hai : a = i
      · subst hai
        have hnotin : a ∉ t := (List.nodup_cons.mp hnd).1
        have ht : t.countP g = t.countP f := by
          refine countP_congr_eq (fun x hx => ?_)
          exact hcong x (List.mem_cons_of_mem a hx) (fun hxa => hnotin (hxa ▸ hx))
        simp [List.countP_cons, hgi, hfi, ht]
      · have hmem' : i ∈ t := by
          rcases List.mem_cons.mp hmem with h1 | h1
          · exact absurd h1.symm hai
          · exact h1
        have ha := hcong a (List.mem_cons_self a t) hai
        have ht := ih (List.nodup_cons.mp hnd).2 hmem'
          (fun j hj hji => hcong j (List.mem_cons_of_mem a hj) hji)
        simp only [List.countP_cons, ha, ht]
        omega

theorem rpdo_passBounds : passBounds rpdoParams := by
  constructor <;> norm_num [rpdoParams]

theorem tpdo_passBounds : passBounds tpdoParams := by
  constructor <;> norm_num [tpdoParams]

/-- How the creation step for slot `i` affects the membership of another
slot's communication section: only slot `i` becomes present. -/
theorem contains_comm_pdoCreateBody (P : PdoPassParams) (hP : passBounds P)
    (cfg : Store) (i j : Nat) (compact n : Int) (hi : i < 512) (hj : j < 512) :
    (pdoCreateBody P cfg i compact n).contains (pyHex4 (P.commBase + j)) =
      if j = i then true else cfg.contains (pyHex4 (P.commBase + j)) := by
  obtain ⟨hP1, hP2⟩ := hP
  have hci : P.commBase + i < 65536 := by omega
  have hcj : P.commBase + j < 65536 := by omega
  have hmi : P.mapBase + i < 65536 := by omega
  by_cases hEq : j = i
  · subst hEq
    rw [if_pos rfl]
    exact contains_pdoCreateBody_self P cfg j compact n
  · rw [if_neg hEq]
    refine contains_pdoCreateBody_other P cfg i compact n _ ?_ ?_ ?_
    · exact lcEq_pyHex4_of_ne hci hcj (by omega)
    · intro d hd
      have hdlen : d.length = 4 := by
        simp only [subSuffixes, List.mem_cons, List.not_mem_nil, or_false] at hd
        rcases hd with rfl | rfl | rfl | rfl | rfl | rfl | rfl <;> rfl
      apply lcEq_false_of_length_ne
      rw [length_append_str, pyHex4_length hci, pyHex4_length hcj, hdlen]
      omega
    · exact lcEq_pyHex4_of_ne hmi hcj (by omega)

/-- The creation step bumps the explicit-PDO count by exactly one. -/
theorem countPdo_pdoCreateBody (P : PdoPassParams) (hP : passBounds P)
    (cfg : Store) (i : Nat) (compact n : Int) (hi : i < 512)
    (habs : cfg.contains (pyHex4 (P.commBase + i)) = false) :
    countPdo P (pdoCreateBody P cfg i compact n) = countPdo P cfg + 1 := by
  unfold countPdo
  refine countP_update (List.nodup_range 512) (List.mem_range.mpr hi)
    (fun j hj hji => ?_) ?_ habs
  · have hj512 := List.mem_range.mp hj
    rw [contains_comm_pdoCreateBody P hP cfg i j compact n hi hj512, if_neg hji]
  · rw [contains_comm_pdoCreateBody P hP cfg i i compact n hi hi, if_pos rfl]

/-- The creation step including the `SupportedObjects` read. -/
theorem pdoCreate_eq {P : PdoPassParams} {cfg cfg' : Store} {i : Nat}
    {compact : Int} (h : pdoCreate P cfg i compact = some cfg') :
    ∃ n, cfg' = pdoCreateBody P cfg i compact n := by
  unfold pdoCreate at h
  split at h
  · exact absurd h (by simp)
  · split at h
    · exact absurd h (by simp)
    · split at h
      · exact absurd h (by simp)
      · exact ⟨_, (Option.some.inj h).symm⟩

/-- The expansion loop never removes a section. -/
theorem pdoLoop_mono {P : PdoPassParams} :
    ∀ (is : List Nat) (cfg cfg' : Store) (npdo nr compact : Int),
      pdoLoop P cfg npdo nr compact is = some cfg' →
      ∀ s, cfg.contains s = true → cfg'.contains s = true := by
  intro is
  induction is with
  | nil =>
      intro cfg cfg' npdo nr compact h s hs
      obtain rfl : cfg = cfg' := Option.some.inj h
      exact hs
  | cons i is ih =>
      intro cfg cfg' npdo nr compact h s hs
      unfold pdoLoop at h
      split at h
      · obtain rfl : cfg = cfg' := Option.some.inj h
        exact hs
      · split at h
        · exact ih cfg cfg' npdo nr compact h s hs
        · rcases hcr : pdoCreate P cfg i compact with _ | cfg1
          · rw [hcr] at h
            exact absurd h (by simp)
          · rw [hcr] at h
            obtain ⟨n, rfl⟩ := pdoCreate_eq hcr
            exact ih _ cfg' _ nr compact h s
              (contains_pdoCreateBody_mono P cfg i compact n s hs)

theorem lcEq_OO_DI : lcEq ("OptionalObjects") ("DeviceInfo") = false := by decide

theorem length_DI : ("DeviceInfo" : String).length = 10 := rfl

/-- The expansion loop never touches `[DeviceInfo]`. -/
theorem pdoLoop_find?_DI {P : PdoPassParams} (hP : passBounds P) :
    ∀ (is : List Nat) (cfg cfg' : Store) (npdo nr compact : Int),
      (∀ i ∈ is, i < 512) →
      pdoLoop P cfg npdo nr compact is = some cfg' →
      cfg'.find? ("DeviceInfo") = cfg.find? ("DeviceInfo") := by
  intro is
  induction is with
  | nil =>
      intro cfg cfg' npdo nr compact _ h
      obtain rfl : cfg = cfg' := Option.some.inj h
      rfl
  | cons i is ih =>
      intro cfg cfg' npdo nr compact hbnd h
      obtain ⟨hP1, hP2⟩ := hP
      have hi : i < 512 := hbnd i (List.mem_cons_self i is)
      have hci : P.commBase + i < 65536 := by omega
      have hmi : P.mapBase + i < 65536 := by omega
      unfold pdoLoop at h
      split at h
      · obtain rfl : cfg = cfg' := Option.some.inj h
        rfl
      · split at h
        · exact ih cfg cfg' npdo nr compact
            (fun j hj => hbnd j (List.mem_cons_of_mem i hj)) h
        · rcases hcr : pdoCreate P cfg i compact with _ | cfg1
          · rw [hcr] at h
            exact absurd h (by simp)
          · rw [hcr] at h
            obtain ⟨n, rfl⟩ := pdoCreate_eq hcr
            rw [ih _ cfg' _ nr compact
              (fun j hj => hbnd j (List.mem_cons_of_mem i hj)) h]
            refine find?_pdoCreateBody_other P cfg i compact n _ lcEq_OO_DI ?_ ?_ ?_
            · exact lcEq_false_of_length_ne (by rw [pyHex4_length hci, length_DI]; omega)
            · intro d hd
              have hdlen : d.length = 4 := by
                simp only [subSuffixes, List.mem_cons, List.not_mem_nil, or_false] at hd
                rcases hd with rfl | rfl | rfl | rfl | rfl | rfl | rfl <;> rfl
              exact lcEq_false_of_length_ne
                (by rw [length_append_str, pyHex4_length hci, hdlen, length_DI]; omega)
            · exact lcEq_false_of_length_ne (by rw [pyHex4_length hmi, length_DI]; omega)

/-- Post-condition of the expansion loop: either the PDO count reached the
requested number, or every listed slot's communication section exists. -/
theorem pdoLoop_post {P : PdoPassParams} (hP : passBounds P) :
    ∀ (is : List Nat) (cfg cfg' : Store) (nr compact : Int),
      (∀ i ∈ is, i < 512) →
      pdoLoop P cfg (countPdo P cfg : Int) nr compact is = some cfg' →
      (nr ≤ (countPdo P cfg' : Int)) ∨
        (∀ i ∈ is, cfg'.contains (pyHex4 (P.commBase + i)) = true) := by
  intro is
  induction is with
  | nil =>
      intro cfg cfg' nr compact _ h
      exact Or.inr (fun i hi => absurd hi (List.not_mem_nil i))
  | cons i is ih =>
      intro cfg cfg' nr compact hbnd h
      have hi : i < 512 := hbnd i (List.mem_cons_self i is)
      unfold pdoLoop at h
      split at h
      case isTrue hle =>
        obtain rfl : cfg = cfg' := Option.some.inj h
        exact Or.inl hle
      case isFalse hle =>
        split at h
        case isTrue hcont =>
          rcases ih cfg cfg' nr compact
              (fun j hj => hbnd j (List.mem_cons_of_mem i hj)) h with h1 | h1
          · exact Or.inl h1
          · refine Or.inr (fun j hj => ?_)
            rcases List.mem_cons.mp hj with rfl | hj'
            · exact pdoLoop_mono is cfg cfg' _ nr compact h _ hcont
            · exact h1 j hj'
        case isFalse hcont =>
          rcases hcr : pdoCreate P cfg i compact with _ | cfg1
          · rw [hcr] at h
            exact absurd h (by simp)
          · rw [hcr] at h
            obtain ⟨n, rfl⟩ := pdoCreate_eq hcr
            have hcount : countPdo P (pdoCreateBody P cfg i compact n) =
                countPdo P cfg + 1 :=
              countPdo_pdoCreateBody P hP cfg i compact n hi
                (Bool.not_eq_true _ ▸ Bool.of_not_eq_true hcont)
            have h' : pdoLoop P (pdoCreateBody P cfg i compact n)
                (countPdo P (pdoCreateBody P cfg i compact n) : Int) nr compact is =
                some cfg' := by
              rw [hcount]
              exact_mod_cast h
            rcases ih _ cfg' nr compact
                (fun j hj => hbnd j (List.mem_cons_of_mem i hj)) h' with h1 | h1
            · exact Or.inl h1
            · refine Or.inr (fun j hj => ?_)
              rcases List.mem_cons.mp hj with rfl | hj'
              · exact pdoLoop_mono is _ cfg' _ nr compact h' _
                  (contains_pdoCreateBody_self P cfg j compact n)
              · exact h1 j hj'

/-- With the count already at the target, the loop is the identity. -/
theorem pdoLoop_id_of_ge {P : PdoPassParams} (cfg : Store)
    (npdo nr compact : Int) (is : List Nat) (h : nr ≤ npdo) :
    pdoLoop P cfg npdo nr compact is = some cfg := by
  cases is with
  | nil => rfl
  | cons i is => unfold pdoLoop; rw [if_pos h]

/-- With every listed communication section present, the loop is the
identity. -/
theorem pdoLoop_id_of_all {P : PdoPassParams} :
    ∀ (is : List Nat) (cfg : Store) (npdo nr compact : Int),
      (∀ i ∈ is, cfg.contains (pyHex4 (P.commBase + i)) = true) →
      pdoLoop P cfg npdo nr compact is = some cfg := by
  intro is
  induction is with
  | nil => intro cfg npdo nr compact _; rfl
  | cons i is ih =>
      intro cfg npdo nr compact hall
      unfold pdoLoop
      split
      · rfl
      · rw [hall i (List.mem_cons_self i is)]
        exact ih cfg npdo nr compact (fun j hj => hall j (List.mem_cons_of_mem i hj))

/-- The expansion pass never removes a section. -/
theorem pdoPass_mono {P : PdoPassParams} {cfg cfg' : Store}
    (h : pdoPass P cfg = some cfg') :
    ∀ s, cfg.contains s = true → cfg'.contains s = true := by
  unfold pdoPass at h
  rcases hDI : cfg.find? ("DeviceInfo") with _ | di
  · rw [hDI] at h
    dsimp only at h
    obtain rfl : cfg = cfg' := Option.some.inj h
    exact fun s hs => hs
  · rw [hDI] at h
    dsimp only at h
    rcases hE : (match di.getNonempty ("CompactPDO") with
                 | none => some (0 : Int)
                 | some s => parseInt0 s) with _ | compact
    · rw [hE] at h
      dsimp only at h
      exact absurd h (by simp)
    · rw [hE] at h
      dsimp only at h
      split at h
      · obtain rfl : cfg = cfg' := Option.some.inj h
        exact fun s hs => hs
      · rcases hN : (match di.getNonempty P.nrKey with
                     | none => some (0 : Int)
                     | some s => parseInt0 s) with _ | nr
        · rw [hN] at h
          dsimp only at h
          exact absurd h (by simp)
        · rw [hN] at h
          dsimp only at h
          exact pdoLoop_mono (List.range 512) cfg cfg' _ nr compact h

/-- The expansion pass never touches `[DeviceInfo]`. -/
theorem pdoPass_find?_DI {P : PdoPassParams} (hP : passBounds P)
    {cfg cfg' : Store} (h : pdoPass P cfg = some cfg') :
    cfg'.find? ("DeviceInfo") = cfg.find? ("DeviceInfo") := by
  unfold pdoPass at h
  rcases hDI : cfg.find? ("DeviceInfo") with _ | di
  · rw [hDI] at h
    dsimp only at h
    obtain rfl : cfg = cfg' := Option.some.inj h
    exact hDI
  · rw [hDI] at h
    dsimp only at h
    rcases hE : (match di.getNonempty ("CompactPDO") with
                 | none => some (0 : Int)
                 | some s => parseInt0 s) with _ | compact
    · rw [hE] at h
      dsimp only at h
      exact absurd h (by simp)
    · rw [hE] at h
      dsimp only at h
      split at h
      · obtain rfl : cfg = cfg' := Option.some.inj h
        exact hDI
      · rcases hN : (match di.getNonempty P.nrKey with
                     | none => some (0 : Int)
                     | some s => parseInt0 s) with _ | nr
        · rw [hN] at h
          dsimp only at h
          exact absurd h (by simp)
        · rw [hN] at h
          dsimp only at h
          exact (pdoLoop_find?_DI hP (List.range 512) cfg cfg' _ nr compact
            (fun i hi => List.mem_range.mp hi) h).trans hDI

/-- Running the pass on any store that extends a completed run of the same
pass — `[DeviceInfo]` unchanged, no section removed — is the identity.
This is the engine of the idempotence claim. -/
theorem pdoPass_id_of_done {P : PdoPassParams} (hP : passBounds P)
    {cfg cfg1 cfg2 : Store} (h1 : pdoPass P cfg = some cfg1)
    (hDI2 : cfg2.find? ("DeviceInfo") = cfg1.find? ("DeviceInfo"))
    (hmono : ∀ s, cfg1.contains s = true → cfg2.contains s = true) :
    pdoPass P cfg2 = some cfg2 := by
  have hDI1 : cfg1.find? ("DeviceInfo") = cfg.find? ("DeviceInfo") :=
    pdoPass_find?_DI hP h1
  unfold pdoPass at h1 ⊢
  rcases hDI : cfg.find? ("DeviceInfo") with _ | di
  · rw [hDI2, hDI1, hDI]
  · rw [hDI] at h1
    dsimp only at h1
    rw [hDI2, hDI1, hDI]
    dsimp only
    rcases hE : (match di.getNonempty ("CompactPDO") with
                 | none => some (0 : Int)
                 | some s => parseInt0 s) with _ | compact
    · rw [hE] at h1
      dsimp only at h1
      exact absurd h1 (by simp)
    · rw [hE] at h1
      dsimp only at h1
      rw [hE]
      dsimp only
      split at h1
      case isTrue hcz =>
        rw [if_pos hcz]
      case isFalse hcz =>
        rw [if_neg hcz]
        rcases hN : (match di.getNonempty P.nrKey with
                     | none => some (0 : Int)
                     | some s => parseInt0 s) with _ | nr
        · rw [hN] at h1
          dsimp only at h1
          exact absurd h1 (by simp)
        · rw [hN] at h1
          dsimp only at h1
          rw [hN]
          dsimp only
          have hcle : countPdo P cfg1 ≤ countPdo P cfg2 := by
            unfold countPdo
            exact countP_le_countP (fun a _ hc => hmono _ hc)
          rcases pdoLoop_post hP (List.range 512) cfg cfg1 nr compact
              (fun i hi => List.mem_range.mp hi) h1 with hge | hall
          · refine pdoLoop_id_of_ge cfg2 _ nr compact _ ?_
            have hc2 : (countPdo P cfg1 : Int) ≤ (countPdo P cfg2 : Int) := by
              exact_mod_cast hcle
            omega
          · exact pdoLoop_id_of_all (List.range 512) cfg2 _ nr compact
              (fun i hi => hmono _ (hall i hi))

/-- Claim C7: the CompactPDO expansion is idempotent — whenever the RPDO
and TPDO passes run successfully on a store, running both again on the
already-expanded store returns it unchanged (same sections, same keys,
same values). -/
theorem C7_expansion_idempotent (cfg cfg' : Store)
    (h : expandStore cfg = some cfg') : expandStore cfg' = some cfg' := by
  unfold expandStore at h ⊢
  rcases h1 : pdoPass rpdoParams cfg with _ | cfg1
  · rw [h1] at h
    exact absurd h (by simp)
  · rw [h1] at h
    dsimp only at h
    have hA : pdoPass rpdoParams cfg' = some cfg' :=
      pdoPass_id_of_done rpdo_passBounds h1
        (pdoPass_find?_DI tpdo_passBounds h) (pdoPass_mono h)
    rw [hA]
    dsimp only
    exact pdoPass_id_of_done tpdo_passBounds h rfl (fun s hs => hs)

set_option maxRecDepth 4096 in
/-- Witness for C7: the expansion of the concrete store above is a fixed
point of the expansion. -/
theorem C7_expansion_idempotent_witness : expandStore storeC7' = some storeC7' :=
  C7_expansion_idempotent storeC7 storeC7' (by decide)

end LelyDcf

